import Mathlib

/-!
# Supernova poi sketch (`Kinetic_POV/supernova_poi/src/main.cpp`)

A shallow embedding of the sketch: the button gesture decoder
(`handleButtonInput`), the image sequencer (`initializeCurrentImage`,
`advanceToNextImage`) and the four scanline decoders of `loop()`.

Conventions.
* `uint32_t` timestamps are natural numbers; every subtraction of two
  timestamps is done modulo `2^32` (`sub32`).
* `uint8_t` loop counters are natural numbers wrapped modulo `256` at every
  increment.
* Flash / RAM buffers reached through a pointer are functions from a byte
  offset to a number; a read through a `uint8_t *` is `readByte`, which
  truncates to eight bits.
* Calls into the DotStar library are recorded: `setPixelColor` calls as a
  list of `PixelWrite`s in call order, the brightness register as a field.
-/

namespace SupernovaPoi

/-! ## Constants of `main.cpp` -/

def TAP_THRESHOLD_MS : Nat := 800
def HOLD_THRESHOLD_MS : Nat := 2000
def LONG_HOLD_THRESHOLD_MS : Nat := 5000
def DEBOUNCE_DELAY_MS : Nat := 50

/-- The table `intensityLevels[]` of `main.cpp`. -/
def intensityLevels : List Nat := [15, 31, 63, 127, 255]

/-- Subtraction of two `uint32_t` values, as the hardware does it. -/
def sub32 (a b : Nat) : Nat := (a % 4294967296 + (4294967296 - b % 4294967296)) % 4294967296

/-- Increment of a `uint8_t` variable. -/
def inc8 (x : Nat) : Nat := (x + 1) % 256

/-- A byte buffer behind a pointer: offset to stored value. -/
abbrev Memory := Nat → Nat

/-- A read through a `uint8_t *`. -/
def readByte (m : Memory) (a : Nat) : Nat := m a % 256

/-! ## Declarations of `graphics.h` -/

/-- Modelled from the spec: the four format tags `PALETTE1`, `PALETTE4`,
`PALETTE8`, `TRUECOLOR` that `graphics.h` (not part of the sources) defines
for the `type` field of an image descriptor. -/
inductive ImageFormat where
  | PALETTE1
  | PALETTE4
  | PALETTE8
  | TRUECOLOR
  deriving DecidableEq, Repr

/-- Modelled from the spec: the image descriptor of `graphics.h`, with the
four fields `type`, `lines`, `palette`, `pixels` that `main.cpp` reads. -/
structure image where
  type : ImageFormat
  lines : Nat
  palette : Memory
  pixels : Memory

/-- Modelled from the spec: what `graphics.h` supplies to `main.cpp`, the
strip length `NUM_LEDS`, the image count `NUM_IMAGES` and the table
`images[]`. -/
structure Graphics where
  NUM_LEDS : Nat
  NUM_IMAGES : Nat
  images : Nat → image

/-! ## Global state of the sketch -/

/-- The `struct ButtonStateTracker` of `main.cpp`. -/
structure ButtonStateTracker where
  currentlyPressed : Bool
  previouslyPressed : Bool
  pressStartTimestamp : Nat
  releaseTimestamp : Nat
  lastDebounceTime : Nat
  actionExecuted : Bool
  deriving DecidableEq, Repr

/-- The global variables of `main.cpp` other than `buttonState`, together
with the brightness register of the strip object (`strip.getBrightness()`,
`strip.setBrightness()`). -/
structure Display where
  enableAutomaticCycling : Bool
  secondsBetweenPatterns : Nat
  brightness : Nat
  timestampOfLastImageChange : Nat
  timestampOfLastScanline : Nat
  activeImageIndex : Nat
  activeImageFormat : ImageFormat
  pointerToImagePalette : Memory
  pointerToImagePixelData : Memory
  colorLookupTable : Memory
  totalScanlines : Nat
  currentScanlineIndex : Nat
  currentIntensityIndex : Nat
  microsPerScanline : Nat

/-- The whole mutable state: the button tracker and the other globals. -/
structure Device where
  buttonState : ButtonStateTracker
  display : Display

/-- The gesture actions the decoder can carry out; `handleButtonInput`
records one each time the corresponding branch of the source runs. -/
inductive Action where
  | AdvanceImage
  | WakeDisplay
  | TogglePower
  | ToggleAutoCycle
  deriving DecidableEq, Repr

/-- What one call of `handleButtonInput` reads from the outside:
`millis()` at entry, the pin (`true` = electrically low = pressed), and
`millis()` as read by `initializeCurrentImage` should the call reach it. -/
structure Poll where
  currentTime : Nat
  pinReading : Bool
  initTime : Nat
  deriving DecidableEq, Repr

/-! ## Image sequencer -/

/-- The source's `memcpy_P(colorLookupTable, pointerToImagePalette, n)`. -/
def memcpy_P (dst src : Memory) (n : Nat) : Memory :=
  fun a => if a < n then readByte src a else dst a

/-- The source's `initializeCurrentImage()`; `now` is what `millis()` returns. -/
def initializeCurrentImage (g : Graphics) (now : Nat) (s : Display) : Display :=
  let img := g.images s.activeImageIndex
  let s := { s with
    activeImageFormat := img.type
    totalScanlines := img.lines % 65536
    currentScanlineIndex := 0
    pointerToImagePalette := img.palette
    pointerToImagePixelData := img.pixels }
  let s :=
    if s.activeImageFormat = ImageFormat.PALETTE1 then
      { s with colorLookupTable := memcpy_P s.colorLookupTable s.pointerToImagePalette (2 * 3) }
    else if s.activeImageFormat = ImageFormat.PALETTE4 then
      { s with colorLookupTable := memcpy_P s.colorLookupTable s.pointerToImagePalette (16 * 3) }
    else s
  { s with timestampOfLastImageChange := now }

/-- The source's `advanceToNextImage()`. -/
def advanceToNextImage (g : Graphics) (now : Nat) (s : Display) : Display :=
  let s := { s with activeImageIndex := inc8 s.activeImageIndex }
  let s := if s.activeImageIndex ≥ g.NUM_IMAGES then { s with activeImageIndex := 0 } else s
  initializeCurrentImage g now s

/-! ## Gesture decoder -/

/-- The value `intensityLevels[currentIntensityIndex]`. -/
def wakeLevel (s : Display) : Nat := intensityLevels.getD s.currentIntensityIndex 0

/-- Lines 142-144: a change of the raw sample restarts the debounce timer. -/
def debounceStamp (p : Poll) (b : ButtonStateTracker) : ButtonStateTracker :=
  if p.pinReading != b.previouslyPressed then { b with lastDebounceTime := p.currentTime } else b

/-- Lines 147-171: the debounced state follows the raw sample; a press edge
starts a press, a release edge may carry out a tap. -/
def edgeStep (g : Graphics) (p : Poll) (d : Device) : Device × List Action :=
  if p.pinReading != d.buttonState.currentlyPressed then
    let b := { d.buttonState with currentlyPressed := p.pinReading }
    if b.currentlyPressed then
      (⟨{ b with pressStartTimestamp := p.currentTime, actionExecuted := false }, d.display⟩, [])
    else
      let b := { b with releaseTimestamp := p.currentTime }
      let pressDuration := sub32 b.releaseTimestamp b.pressStartTimestamp
      if !b.actionExecuted then
        if pressDuration < TAP_THRESHOLD_MS then
          if d.display.brightness > 0 then
            (⟨b, advanceToNextImage g p.initTime d.display⟩, [Action.AdvanceImage])
          else
            (⟨b, { d.display with brightness := wakeLevel d.display }⟩, [Action.WakeDisplay])
        else (⟨b, d.display⟩, [])
      else (⟨b, d.display⟩, [])
  else (d, [])

/-- Lines 173-190: the hold actions while the button stays pressed. -/
def heldStep (p : Poll) (d : Device) : Device × List Action :=
  if d.buttonState.currentlyPressed && !d.buttonState.actionExecuted then
    let heldDuration := sub32 p.currentTime d.buttonState.pressStartTimestamp
    if heldDuration ≥ LONG_HOLD_THRESHOLD_MS then
      let s := if d.display.brightness > 0 then { d.display with brightness := 0 }
               else { d.display with brightness := wakeLevel d.display }
      (⟨{ d.buttonState with actionExecuted := true }, s⟩, [Action.TogglePower])
    else if heldDuration ≥ HOLD_THRESHOLD_MS then
      (⟨{ d.buttonState with actionExecuted := true },
        { d.display with enableAutomaticCycling := !d.display.enableAutomaticCycling }⟩,
        [Action.ToggleAutoCycle])
    else (d, [])
  else (d, [])

/-- The source's `handleButtonInput()`: the state after the call and the
actions carried out during it, in order. -/
def handleButtonInput (g : Graphics) (p : Poll) (d : Device) : Device × List Action :=
  let d : Device := ⟨debounceStamp p d.buttonState, d.display⟩
  let r :=
    if sub32 p.currentTime d.buttonState.lastDebounceTime > DEBOUNCE_DELAY_MS then
      let e := edgeStep g p d
      let h := heldStep p e.1
      (h.1, e.2 ++ h.2)
    else (d, [])
  (⟨{ r.1.buttonState with previouslyPressed := p.pinReading }, r.1.display⟩, r.2)

/-- A run of calls of `handleButtonInput`, oldest first. -/
def runPolls (g : Graphics) : List Poll → Device → Device × List Action
  | [], d => (d, [])
  | p :: ps, d =>
    let r := handleButtonInput g p d
    let t := runPolls g ps r.1
    (t.1, r.2 ++ t.2)

/-! ## Vocabulary for runs of polls -/

/-- The state after one call of `handleButtonInput`. -/
def pollState (g : Graphics) (p : Poll) (d : Device) : Device := (handleButtonInput g p d).1

/-- The states after each call of a run of polls, oldest first. -/
def statesOf (g : Graphics) : List Poll → Device → List Device
  | [], _ => []
  | p :: ps, d => pollState g p d :: statesOf g ps (pollState g p d)

/-- A debounced press edge between two states: released before, pressed after. -/
def pressEdge (d d' : Device) : Bool :=
  !d.buttonState.currentlyPressed && d'.buttonState.currentlyPressed

/-- No call of the run produces a debounced press edge. -/
def noPressEdge (g : Graphics) : List Poll → Device → Bool
  | [], _ => true
  | p :: ps, d => !pressEdge d (pollState g p d) && noPressEdge g ps (pollState g p d)

/-- The two hold actions. -/
def isHoldAction : Action → Bool
  | Action.TogglePower => true
  | Action.ToggleAutoCycle => true
  | _ => false

/-- Number of hold actions in a log. -/
def holdCount (acts : List Action) : Nat := acts.countP isHoldAction

/-- Potential of a state: one while a press is open and its latch is clear,
zero otherwise. A hold action can only fire by spending it. -/
def holdBudget (d : Device) : Nat :=
  if d.buttonState.currentlyPressed && !d.buttonState.actionExecuted then 1 else 0

/-! ## Scanline renderer (the `switch` of `loop()`) -/

/-- One call `strip.setPixelColor(index, r, g, b)`; `rgb` is `(r, g, b)`. -/
structure PixelWrite where
  index : Nat
  rgb : Nat × Nat × Nat
  deriving DecidableEq, Repr

/-- The row `colorLookupTable[i]` of the `uint8_t [16][3]` cache, which is
laid out row after row: bytes `3 i`, `3 i + 1`, `3 i + 2`. -/
def cacheEntry (clt : Memory) (i : Nat) : Nat × Nat × Nat :=
  (readByte clt (3 * i), readByte clt (3 * i + 1), readByte clt (3 * i + 2))

/-- The inner loop `for(bitIndex = 8; bitIndex--; packedPixels >>= 1)` of the
PALETTE1 case, started with `bitIndex` iterations to go: the calls made and
the value of `ledIndex` afterwards. -/
def palette1Bits (clt : Memory) : Nat → Nat → Nat → List PixelWrite × Nat
  | 0, _, ledIndex => ([], ledIndex)
  | bitIndex + 1, packedPixels, ledIndex =>
    let paletteIndex := packedPixels &&& 1
    let r := palette1Bits clt bitIndex (packedPixels >>> 1) (inc8 ledIndex)
    (⟨ledIndex, cacheEntry clt paletteIndex⟩ :: r.1, r.2)

/-- The outer loop `for(byteIndex = NUM_LEDS/8; byteIndex--; )` of the
PALETTE1 case, started with `byteIndex` iterations to go. -/
def palette1Bytes (clt pixels : Memory) : Nat → Nat → Nat → List PixelWrite
  | 0, _, _ => []
  | byteIndex + 1, dataPointer, ledIndex =>
    let packedPixels := readByte pixels dataPointer
    let r := palette1Bits clt 8 packedPixels ledIndex
    r.1 ++ palette1Bytes clt pixels byteIndex (dataPointer + 1) r.2

/-- The loop `for(ledIndex = 0; ledIndex < NUM_LEDS; )` of the PALETTE4 case.
The counter is a `uint8_t`, so the loop need not end; `none` means the fuel
ran out before the loop condition became false. -/
def palette4Loop (numLeds : Nat) (clt pixels : Memory) : Nat → Nat → Nat → Option (List PixelWrite)
  | 0, _, _ => none
  | fuel + 1, dataPointer, ledIndex =>
    if ledIndex < numLeds then
      let secondNibble := readByte pixels dataPointer
      let firstNibble := secondNibble >>> 4
      let secondNibble := secondNibble &&& 0x0F
      let ledIndex1 := inc8 ledIndex
      let ledIndex2 := inc8 ledIndex1
      (palette4Loop numLeds clt pixels fuel (dataPointer + 1) ledIndex2).map
        (fun ws => ⟨ledIndex, cacheEntry clt firstNibble⟩ ::
          ⟨ledIndex1, cacheEntry clt secondNibble⟩ :: ws)
    else some []

/-- The loop of the PALETTE8 case; `paletteOffset` is a `uint16_t`. -/
def palette8Loop (numLeds : Nat) (palette pixels : Memory) : Nat → Nat → Nat → Option (List PixelWrite)
  | 0, _, _ => none
  | fuel + 1, dataPointer, ledIndex =>
    if ledIndex < numLeds then
      let paletteOffset := (readByte pixels dataPointer * 3) % 65536
      (palette8Loop numLeds palette pixels fuel (dataPointer + 1) (inc8 ledIndex)).map
        (fun ws => ⟨ledIndex, (readByte palette paletteOffset, readByte palette (paletteOffset + 1),
          readByte palette (paletteOffset + 2))⟩ :: ws)
    else some []

/-- The loop of the TRUECOLOR case. -/
def truecolorLoop (numLeds : Nat) (pixels : Memory) : Nat → Nat → Nat → Option (List PixelWrite)
  | 0, _, _ => none
  | fuel + 1, dataPointer, ledIndex =>
    if ledIndex < numLeds then
      let redValue := readByte pixels dataPointer
      let greenValue := readByte pixels (dataPointer + 1)
      let blueValue := readByte pixels (dataPointer + 2)
      (truecolorLoop numLeds pixels fuel (dataPointer + 3) (inc8 ledIndex)).map
        (fun ws => ⟨ledIndex, (redValue, greenValue, blueValue)⟩ :: ws)
    else some []

/-- The render `switch` of `loop()`: the `setPixelColor` calls of one pass in
call order, or `none` when the pass has not ended within `fuel` loop tests.
The start offsets are computed in `int`, where the source has no wrap-around
for a 16-bit scanline index and a strip of a few hundred LEDs. -/
def renderScanline (g : Graphics) (fuel : Nat) (s : Display) : Option (List PixelWrite) :=
  match s.activeImageFormat with
  | ImageFormat.PALETTE1 =>
    some (palette1Bytes s.colorLookupTable s.pointerToImagePixelData
      ((g.NUM_LEDS / 8) % 256) (s.currentScanlineIndex * g.NUM_LEDS / 8) 0)
  | ImageFormat.PALETTE4 =>
    palette4Loop g.NUM_LEDS s.colorLookupTable s.pointerToImagePixelData fuel
      (s.currentScanlineIndex * g.NUM_LEDS / 2) 0
  | ImageFormat.PALETTE8 =>
    palette8Loop g.NUM_LEDS s.pointerToImagePalette s.pointerToImagePixelData fuel
      (s.currentScanlineIndex * g.NUM_LEDS) 0
  | ImageFormat.TRUECOLOR =>
    truecolorLoop g.NUM_LEDS s.pointerToImagePixelData fuel
      (s.currentScanlineIndex * g.NUM_LEDS * 3) 0

/-- The colour a list of `setPixelColor` calls leaves on LED `i`: that of the
last call addressed to `i`, if there is one. -/
def lastWrite (ws : List PixelWrite) (i : Nat) : Option (Nat × Nat × Nat) :=
  ws.foldl (fun acc w => if w.index = i then some w.rgb else acc) none

/-- The PALETTE1 pixel with running number `i` of a pass that starts reading
at byte offset `base`: bit `i mod 8` of byte `i / 8`. -/
def palette1Pixel (clt pixels : Memory) (base i : Nat) : PixelWrite :=
  ⟨i, cacheEntry clt ((readByte pixels (base + i / 8) >>> (i % 8)) &&& 1)⟩

/-- The PALETTE4 pixel with running number `i`: the high nibble of byte
`i / 2` for even `i`, the low nibble for odd `i`. -/
def palette4Pixel (clt pixels : Memory) (base i : Nat) : PixelWrite :=
  ⟨i, cacheEntry clt (if i % 2 = 0 then readByte pixels (base + i / 2) >>> 4
    else readByte pixels (base + i / 2) &&& 0x0F)⟩

/-- The PALETTE8 pixel with running number `i`. -/
def palette8Pixel (palette pixels : Memory) (base i : Nat) : PixelWrite :=
  ⟨i, (readByte palette (3 * readByte pixels (base + i)),
    readByte palette (3 * readByte pixels (base + i) + 1),
    readByte palette (3 * readByte pixels (base + i) + 2))⟩

/-- The TRUECOLOR pixel with running number `i`. -/
def truecolorPixel (pixels : Memory) (base i : Nat) : PixelWrite :=
  ⟨i, (readByte pixels (base + 3 * i), readByte pixels (base + 3 * i + 1),
    readByte pixels (base + 3 * i + 2))⟩

/-- The strip lengths for which the loop of a format covers the strip exactly:
whole bytes and an index that fits the 8-bit counter. -/
def supportedLength : ImageFormat → Nat → Bool
  | ImageFormat.PALETTE1, n => n % 8 == 0 && decide (n ≤ 256)
  | ImageFormat.PALETTE4, n => n % 2 == 0 && decide (n ≤ 254)
  | ImageFormat.PALETTE8, n => decide (n ≤ 255)
  | ImageFormat.TRUECOLOR, n => decide (n ≤ 255)

/-! ## Frame scheduler (the rest of `loop()`) -/

/-- Lines 199-204: automatic pattern cycling; `secondsBetweenPatterns * 1000L`
is a 32-bit unsigned product. -/
def autoCycleStep (g : Graphics) (currentMillis initTime : Nat) (s : Display) : Display :=
  if s.enableAutomaticCycling then
    if sub32 currentMillis s.timestampOfLastImageChange ≥ (s.secondsBetweenPatterns * 1000) % 4294967296 then
      advanceToNextImage g initTime s
    else s
  else s

/-- Lines 276-280: advance the `line_t` (16-bit) scanline cursor. -/
def advanceScanline (s : Display) : Display :=
  let s := { s with currentScanlineIndex := (s.currentScanlineIndex + 1) % 65536 }
  if s.currentScanlineIndex ≥ s.totalScanlines then { s with currentScanlineIndex := 0 } else s

/-- Lines 283-286: the wait loop. Each sample pairs a reading of `micros()`
with what `handleButtonInput` reads should the loop body run; `none` means the
samples ran out before the wait ended. The result carries the last reading
of `micros()`. -/
def waitLoop (g : Graphics) : List (Nat × Poll) → Device → Option (Device × List Action × Nat)
  | [], _ => none
  | (currentMicros, p) :: rest, d =>
    if sub32 currentMicros d.display.timestampOfLastScanline < d.display.microsPerScanline then
      let r := handleButtonInput g p d
      (waitLoop g rest r.1).map (fun t => (t.1, r.2 ++ t.2.1, t.2.2))
    else some (d, [], currentMicros)

/-- What one pass of `loop()` reads from the outside. -/
structure Tick where
  currentMillis : Nat
  initTime : Nat
  samples : List (Nat × Poll)

/-- The source's `loop()`: the state afterwards, the `setPixelColor` calls of
the pass and the gesture actions carried out during the wait. -/
def loop (g : Graphics) (fuel : Nat) (t : Tick) (d : Device) :
    Option (Device × List PixelWrite × List Action) :=
  let s := autoCycleStep g t.currentMillis t.initTime d.display
  match renderScanline g fuel s with
  | none => none
  | some ws =>
    let s := advanceScanline s
    match waitLoop g t.samples ⟨d.buttonState, s⟩ with
    | none => none
    | some (d, acts, currentMicros) =>
      some (⟨d.buttonState, { d.display with timestampOfLastScanline := currentMicros }⟩, ws, acts)

/-! ## Pixel-buffer reads of a render pass -/

/-- The offsets at which the PALETTE1 loop dereferences `dataPointer`, in
order: one `*dataPointer++` per iteration of the byte loop. -/
def palette1Reads : Nat → Nat → List Nat
  | 0, _ => []
  | byteIndex + 1, dataPointer => dataPointer :: palette1Reads byteIndex (dataPointer + 1)

/-- The offsets at which the PALETTE4 loop dereferences `dataPointer`: one
`*dataPointer++` per iteration, two increments of `ledIndex`. -/
def palette4Reads (numLeds : Nat) : Nat → Nat → Nat → Option (List Nat)
  | 0, _, _ => none
  | fuel + 1, dataPointer, ledIndex =>
    if ledIndex < numLeds then
      (palette4Reads numLeds fuel (dataPointer + 1) (inc8 (inc8 ledIndex))).map
        (fun rs => dataPointer :: rs)
    else some []

/-- The offsets at which the PALETTE8 loop dereferences `dataPointer`. -/
def palette8Reads (numLeds : Nat) : Nat → Nat → Nat → Option (List Nat)
  | 0, _, _ => none
  | fuel + 1, dataPointer, ledIndex =>
    if ledIndex < numLeds then
      (palette8Reads numLeds fuel (dataPointer + 1) (inc8 ledIndex)).map
        (fun rs => dataPointer :: rs)
    else some []

/-- The offsets at which the TRUECOLOR loop dereferences `dataPointer`: three
`*dataPointer++` per iteration. -/
def truecolorReads (numLeds : Nat) : Nat → Nat → Nat → Option (List Nat)
  | 0, _, _ => none
  | fuel + 1, dataPointer, ledIndex =>
    if ledIndex < numLeds then
      (truecolorReads numLeds fuel (dataPointer + 3) (inc8 ledIndex)).map
        (fun rs => dataPointer :: (dataPointer + 1) :: (dataPointer + 2) :: rs)
    else some []

/-- The offsets into `pointerToImagePixelData` that one render pass reads, in
order; `none` when the pass has not ended within `fuel` loop tests. The loops
and start offsets are those of `renderScanline`. -/
def renderReads (g : Graphics) (fuel : Nat) (s : Display) : Option (List Nat) :=
  match s.activeImageFormat with
  | ImageFormat.PALETTE1 =>
    some (palette1Reads ((g.NUM_LEDS / 8) % 256) (s.currentScanlineIndex * g.NUM_LEDS / 8))
  | ImageFormat.PALETTE4 =>
    palette4Reads g.NUM_LEDS fuel (s.currentScanlineIndex * g.NUM_LEDS / 2) 0
  | ImageFormat.PALETTE8 =>
    palette8Reads g.NUM_LEDS fuel (s.currentScanlineIndex * g.NUM_LEDS) 0
  | ImageFormat.TRUECOLOR =>
    truecolorReads g.NUM_LEDS fuel (s.currentScanlineIndex * g.NUM_LEDS * 3) 0

/-- The offsets the PALETTE4 loop has read by the time it has tested its
condition `fuel` times, whether or not it has ended by then. -/
def palette4ReadsWithin (numLeds : Nat) : Nat → Nat → Nat → List Nat
  | 0, _, _ => []
  | fuel + 1, dataPointer, ledIndex =>
    if ledIndex < numLeds then
      dataPointer :: palette4ReadsWithin numLeds fuel (dataPointer + 1) (inc8 (inc8 ledIndex))
    else []

/-- The offsets the PALETTE8 loop has read within `fuel` loop tests. -/
def palette8ReadsWithin (numLeds : Nat) : Nat → Nat → Nat → List Nat
  | 0, _, _ => []
  | fuel + 1, dataPointer, ledIndex =>
    if ledIndex < numLeds then
      dataPointer :: palette8ReadsWithin numLeds fuel (dataPointer + 1) (inc8 ledIndex)
    else []

/-- The offsets the TRUECOLOR loop has read within `fuel` loop tests. -/
def truecolorReadsWithin (numLeds : Nat) : Nat → Nat → Nat → List Nat
  | 0, _, _ => []
  | fuel + 1, dataPointer, ledIndex =>
    if ledIndex < numLeds then
      dataPointer :: (dataPointer + 1) :: (dataPointer + 2) ::
        truecolorReadsWithin numLeds fuel (dataPointer + 3) (inc8 ledIndex)
    else []

/-- The offsets into `pointerToImagePixelData` that a render pass has read by
the time its loop has tested its condition `fuel` times, in order, whether or
not the pass ends. The PALETTE1 loop always ends and reads all its bytes. -/
def renderReadsWithin (g : Graphics) (fuel : Nat) (s : Display) : List Nat :=
  match s.activeImageFormat with
  | ImageFormat.PALETTE1 =>
    palette1Reads ((g.NUM_LEDS / 8) % 256) (s.currentScanlineIndex * g.NUM_LEDS / 8)
  | ImageFormat.PALETTE4 =>
    palette4ReadsWithin g.NUM_LEDS fuel (s.currentScanlineIndex * g.NUM_LEDS / 2) 0
  | ImageFormat.PALETTE8 =>
    palette8ReadsWithin g.NUM_LEDS fuel (s.currentScanlineIndex * g.NUM_LEDS) 0
  | ImageFormat.TRUECOLOR =>
    truecolorReadsWithin g.NUM_LEDS fuel (s.currentScanlineIndex * g.NUM_LEDS * 3) 0

/-- The number of pixel bytes one scanline of a format occupies on a strip of
`n` LEDs, as the data model lays the image out. -/
def scanlineStride : ImageFormat → Nat → Nat
  | ImageFormat.PALETTE1, n => n / 8
  | ImageFormat.PALETTE4, n => n / 2
  | ImageFormat.PALETTE8, n => n
  | ImageFormat.TRUECOLOR, n => n * 3

/-! ## Further vocabulary for the sequencer, the brightness and the clock -/

/-- Successive calls of `advanceToNextImage`, one per reading of `millis()`. -/
def advanceRepeatedly (g : Graphics) : List Nat → Display → Display
  | [], s => s
  | now :: rest, s => advanceRepeatedly g rest (advanceToNextImage g now s)

/-- A brightness that is off or one of the five levels of `intensityLevels`. -/
def validBrightness (b : Nat) : Prop := b = 0 ∨ b ∈ intensityLevels

instance (b : Nat) : Decidable (validBrightness b) := by
  unfold validBrightness; exact inferInstance

/-- A `uint32_t` timestamp moved forward by `c` on the wrapping clock. -/
def shiftTime (c t : Nat) : Nat := (t + c) % 4294967296

/-- The button tracker with its three timestamps moved forward by `c`. -/
def shiftTracker (c : Nat) (b : ButtonStateTracker) : ButtonStateTracker :=
  { b with
    pressStartTimestamp := shiftTime c b.pressStartTimestamp
    releaseTimestamp := shiftTime c b.releaseTimestamp
    lastDebounceTime := shiftTime c b.lastDebounceTime }

/-- The device with the timestamps of its button tracker moved forward by `c`. -/
def shiftDevice (c : Nat) (d : Device) : Device := ⟨shiftTracker c d.buttonState, d.display⟩

/-- A poll whose entry reading of `millis()` is moved forward by `c`. -/
def shiftPoll (c : Nat) (p : Poll) : Poll := { p with currentTime := shiftTime c p.currentTime }

/-! ## Start-up state and a small asset table for concrete runs -/

/-- The global initialisers of `main.cpp` before `setup()` runs; a freshly
constructed strip object reports brightness 255. -/
def powerOnDisplay : Display where
  enableAutomaticCycling := true
  secondsBetweenPatterns := 12
  brightness := 255
  timestampOfLastImageChange := 0
  timestampOfLastScanline := 0
  activeImageIndex := 0
  activeImageFormat := ImageFormat.PALETTE1
  pointerToImagePalette := fun _ => 0
  pointerToImagePixelData := fun _ => 0
  colorLookupTable := fun _ => 0
  totalScanlines := 0
  currentScanlineIndex := 0
  currentIntensityIndex := intensityLevels.length - 1
  microsPerScanline := 1000000 / 750

/-- The state `setup()` leaves behind when `millis()` reads `now`. -/
def setup (g : Graphics) (now : Nat) : Device :=
  ⟨⟨false, false, 0, 0, 0, false⟩, initializeCurrentImage g now powerOnDisplay⟩

/-- A two-colour palette: black, then white. -/
def sampleBW : Memory := fun a => [0, 0, 0, 255, 255, 255].getD a 0

/-- A palette whose entry `i` is the triple `(i, i + 100, i + 200) mod 256`. -/
def sampleRamp : Memory := fun a => a / 3 + 100 * (a % 3)

/-- An asset table of four images, one of each format, on an 8-LED strip.
The first byte of the PALETTE1 image is `0b10110010`, the first byte of the
PALETTE4 image is `0xA5`. -/
def sampleGraphics : Graphics where
  NUM_LEDS := 8
  NUM_IMAGES := 4
  images := fun i =>
    if i = 0 then ⟨ImageFormat.PALETTE1, 4, sampleBW, fun a => [178, 1, 2, 3].getD a 0⟩
    else if i = 1 then
      ⟨ImageFormat.PALETTE4, 2, sampleRamp, fun a => [165, 18, 52, 86, 120, 154, 188, 222].getD a 0⟩
    else if i = 2 then ⟨ImageFormat.PALETTE8, 3, sampleRamp, fun a => 7 * a⟩
    else ⟨ImageFormat.TRUECOLOR, 1, fun _ => 0, fun a => a⟩

/-- The sample asset table built for a strip of `n` LEDs. -/
def withLeds (n : Nat) : Graphics := { sampleGraphics with NUM_LEDS := n }

/-- The display state right after image `i` of `g` has been selected. -/
def displayOf (g : Graphics) (i : Nat) : Display :=
  initializeCurrentImage g 0 { powerOnDisplay with activeImageIndex := i }

/-- A 3-LED strip with one TRUECOLOR image of one scanline,
`[10,20,30, 40,50,60, 70,80,90]`. -/
def threeLedTruecolor : Graphics where
  NUM_LEDS := 3
  NUM_IMAGES := 1
  images := fun _ =>
    ⟨ImageFormat.TRUECOLOR, 1, fun _ => 0, fun a => [10, 20, 30, 40, 50, 60, 70, 80, 90].getD a 0⟩

/-! ## Concrete runs used in the checks below -/

/-- A five-second hold: the pin reads pressed at 0, 100, 2100 and 5100 ms. -/
def longHoldPolls : List Poll :=
  [⟨0, true, 0⟩, ⟨100, true, 100⟩, ⟨2100, true, 2100⟩, ⟨5100, true, 5100⟩]

/-- The start of a press: pressed samples at 0 and 100 ms. -/
def pressPolls : List Poll := [⟨0, true, 0⟩, ⟨100, true, 100⟩]

/-- The state in which a press that began at 100 ms has just been let go at
`t` ms on the raw pin (the release is not yet debounced). -/
def lettingGoAt (t : Nat) : Device :=
  (runPolls sampleGraphics (pressPolls ++ [⟨t, false, t⟩]) (setup sampleGraphics 0)).1

/-- The state right before the press edge of the sample press: one pressed
sample has been seen at 0 ms. -/
def beforePressEdge : Device := (runPolls sampleGraphics [⟨0, true, 0⟩] (setup sampleGraphics 0)).1

/-- The sample press held from 100 ms and let go on the raw pin at 900 ms. -/
def slowPressState : Device :=
  (runPolls sampleGraphics (⟨100, true, 100⟩ :: [⟨900, false, 900⟩]) beforePressEdge).1

/-- A press that outlasts a wrap of the millisecond counter: press edge at
100 ms, a held poll at 2100 ms, then, after the counter has wrapped, the raw
release at 1000 ms. -/
def wrappedPressMid : List Poll := [⟨2100, true, 2100⟩, ⟨1000, false, 1000⟩]

/-- The state in which the release of the wrapped press is about to be
debounced. -/
def wrappedPressState : Device :=
  (runPolls sampleGraphics (⟨100, true, 100⟩ :: wrappedPressMid) beforePressEdge).1

/-- The sample press once its press edge has been debounced at 100 ms: raw,
previous raw and debounced state pressed, latch clear. -/
def heldDevice : Device := (runPolls sampleGraphics pressPolls (setup sampleGraphics 0)).1

/-- One pass of `loop()` on the sample strip: the wait polls the released
button once, at 10 µs, and ends at 2000 µs. -/
def sampleTick : Tick := ⟨5, 5, [(10, ⟨5, false, 5⟩), (2000, ⟨6, false, 6⟩)]⟩

/-! ## Gesture decoder: single-poll facts -/

@[simp] theorem debounceStamp_currentlyPressed (p : Poll) (b : ButtonStateTracker) :
    (debounceStamp p b).currentlyPressed = b.currentlyPressed := by
  unfold debounceStamp; split <;> rfl

@[simp] theorem debounceStamp_previouslyPressed (p : Poll) (b : ButtonStateTracker) :
    (debounceStamp p b).previouslyPressed = b.previouslyPressed := by
  unfold debounceStamp; split <;> rfl

@[simp] theorem debounceStamp_pressStartTimestamp (p : Poll) (b : ButtonStateTracker) :
    (debounceStamp p b).pressStartTimestamp = b.pressStartTimestamp := by
  unfold debounceStamp; split <;> rfl

@[simp] theorem debounceStamp_releaseTimestamp (p : Poll) (b : ButtonStateTracker) :
    (debounceStamp p b).releaseTimestamp = b.releaseTimestamp := by
  unfold debounceStamp; split <;> rfl

@[simp] theorem debounceStamp_actionExecuted (p : Poll) (b : ButtonStateTracker) :
    (debounceStamp p b).actionExecuted = b.actionExecuted := by
  unfold debounceStamp; split <;> rfl

theorem sub32_self (t : Nat) : sub32 t t = 0 := by
  unfold sub32; omega

theorem sub32_of_le {a b : Nat} (hab : b ≤ a) (ha : a < 4294967296) : sub32 a b = a - b := by
  unfold sub32; omega

/-- A poll that leaves a pressed button released has passed the debounce test
on a released sample. -/
theorem release_poll_inv (g : Graphics) (p : Poll) (d : Device)
    (hcur : d.buttonState.currentlyPressed = true)
    (hrel : (pollState g p d).buttonState.currentlyPressed = false) :
    sub32 p.currentTime d.buttonState.lastDebounceTime > DEBOUNCE_DELAY_MS ∧
      p.pinReading = false ∧ d.buttonState.previouslyPressed = false := by
  revert hrel
  rcases d with ⟨⟨cur, prev, ps, rs, ld, ae⟩, s⟩
  rcases p with ⟨t, raw, it⟩
  simp only at hcur
  subst hcur
  simp only [pollState, handleButtonInput, edgeStep, heldStep, debounceStamp]
  cases raw <;> cases ae <;> cases prev <;>
    simp [sub32_self, DEBOUNCE_DELAY_MS] <;> split_ifs <;> simp_all

theorem release_tap_advance (g : Graphics) (p : Poll) (d : Device)
    (hdeb : sub32 p.currentTime d.buttonState.lastDebounceTime > DEBOUNCE_DELAY_MS)
    (hraw : p.pinReading = false) (hprev : d.buttonState.previouslyPressed = false) (hcur : d.buttonState.currentlyPressed = true)
    (hae : d.buttonState.actionExecuted = false)
    (hdur : sub32 p.currentTime d.buttonState.pressStartTimestamp < TAP_THRESHOLD_MS)
    (hb : 0 < d.display.brightness) :
    handleButtonInput g p d =
      (⟨{ d.buttonState with currentlyPressed := false, releaseTimestamp := p.currentTime },
        advanceToNextImage g p.initTime d.display⟩,
       [Action.AdvanceImage]) := by
  simp [handleButtonInput, edgeStep, heldStep, debounceStamp, hdeb, hraw, hprev, hcur, hae, hdur, hb]

theorem release_tap_wake (g : Graphics) (p : Poll) (d : Device)
    (hdeb : sub32 p.currentTime d.buttonState.lastDebounceTime > DEBOUNCE_DELAY_MS)
    (hraw : p.pinReading = false) (hprev : d.buttonState.previouslyPressed = false) (hcur : d.buttonState.currentlyPressed = true)
    (hae : d.buttonState.actionExecuted = false)
    (hdur : sub32 p.currentTime d.buttonState.pressStartTimestamp < TAP_THRESHOLD_MS)
    (hb : d.display.brightness = 0) :
    handleButtonInput g p d =
      (⟨{ d.buttonState with currentlyPressed := false, releaseTimestamp := p.currentTime },
        { d.display with brightness := wakeLevel d.display }⟩,
       [Action.WakeDisplay]) := by
  simp [handleButtonInput, edgeStep, heldStep, debounceStamp, hdeb, hraw, hprev, hcur, hae, hdur, hb]

theorem release_slow (g : Graphics) (p : Poll) (d : Device)
    (hdeb : sub32 p.currentTime d.buttonState.lastDebounceTime > DEBOUNCE_DELAY_MS)
    (hraw : p.pinReading = false) (hprev : d.buttonState.previouslyPressed = false) (hcur : d.buttonState.currentlyPressed = true)
    (hdur : TAP_THRESHOLD_MS ≤ sub32 p.currentTime d.buttonState.pressStartTimestamp) :
    handleButtonInput g p d =
      (⟨{ d.buttonState with currentlyPressed := false, releaseTimestamp := p.currentTime },
        d.display⟩, []) := by
  have hn : ¬ sub32 p.currentTime d.buttonState.pressStartTimestamp < TAP_THRESHOLD_MS := by omega
  simp [handleButtonInput, edgeStep, heldStep, debounceStamp, hdeb, hraw, hprev, hcur, hn]

/-- A poll that turns a released button pressed starts a press and does
nothing else. -/
theorem press_edge_poll (g : Graphics) (p : Poll) (d : Device)
    (h0 : d.buttonState.currentlyPressed = false)
    (h1 : (pollState g p d).buttonState.currentlyPressed = true) :
    (handleButtonInput g p d).2 = [] ∧ (pollState g p d).display = d.display ∧
      (pollState g p d).buttonState.actionExecuted = false ∧
      (pollState g p d).buttonState.pressStartTimestamp = p.currentTime := by
  revert h1
  rcases d with ⟨⟨cur, prev, ps, rs, ld, ae⟩, s⟩
  rcases p with ⟨t, raw, it⟩
  simp only at h0
  subst h0
  simp only [pollState, handleButtonInput, edgeStep, heldStep]
  cases raw
  · simp
  · simp [sub32_self, LONG_HOLD_THRESHOLD_MS, HOLD_THRESHOLD_MS]
    split_ifs <;> simp_all

/-- While a press is open, unlatched and younger than the hold threshold, a
poll that keeps it pressed changes nothing but debounce bookkeeping. -/
theorem held_quiet_poll (g : Graphics) (p : Poll) (d : Device)
    (hcur : d.buttonState.currentlyPressed = true)
    (hae : d.buttonState.actionExecuted = false)
    (hyoung : sub32 p.currentTime d.buttonState.pressStartTimestamp < HOLD_THRESHOLD_MS)
    (hstay : (pollState g p d).buttonState.currentlyPressed = true) :
    (handleButtonInput g p d).2 = [] ∧ (pollState g p d).display = d.display ∧
      (pollState g p d).buttonState.actionExecuted = false ∧
      (pollState g p d).buttonState.pressStartTimestamp = d.buttonState.pressStartTimestamp := by
  revert hstay
  rcases d with ⟨⟨cur, prev, ps, rs, ld, ae⟩, s⟩
  rcases p with ⟨t, raw, it⟩
  simp only at hcur hae hyoung
  subst hcur hae
  have h1 : ¬ LONG_HOLD_THRESHOLD_MS ≤ sub32 t ps := by
    simp only [LONG_HOLD_THRESHOLD_MS, HOLD_THRESHOLD_MS] at *; omega
  have h2 : ¬ HOLD_THRESHOLD_MS ≤ sub32 t ps := by omega
  simp only [pollState, handleButtonInput, edgeStep, heldStep]
  cases raw
  · simp [h1, h2]
    split_ifs <;> simp_all
  · simp [h1, h2]

/-- Without a press edge a poll can fire a hold action only by spending the
budget of the state. -/
theorem holdCount_step (g : Graphics) (p : Poll) (d : Device)
    (h : pressEdge d (pollState g p d) = false) :
    holdCount (handleButtonInput g p d).2 + holdBudget (pollState g p d) ≤ holdBudget d := by
  revert h
  rcases d with ⟨⟨cur, prev, ps, rs, ld, ae⟩, s⟩
  rcases p with ⟨t, raw, it⟩
  simp only [pressEdge, pollState, handleButtonInput, edgeStep, heldStep, holdBudget, holdCount]
  cases cur <;> cases raw <;> cases ae <;> simp <;> split_ifs <;> simp_all [isHoldAction]

/-- Once the latch is set, a poll that is not a press edge does nothing to
the display and leaves the latch set. -/
theorem latched_poll (g : Graphics) (p : Poll) (d : Device)
    (hae : d.buttonState.actionExecuted = true)
    (h : pressEdge d (pollState g p d) = false) :
    (handleButtonInput g p d).2 = [] ∧ (pollState g p d).display = d.display ∧
      (pollState g p d).buttonState.actionExecuted = true := by
  revert h
  rcases d with ⟨⟨cur, prev, ps, rs, ld, ae⟩, s⟩
  rcases p with ⟨t, raw, it⟩
  simp only at hae
  subst hae
  simp only [pressEdge, pollState, handleButtonInput, edgeStep, heldStep]
  cases cur <;> cases raw <;> simp <;> split_ifs <;> simp_all

/-- With the debounced state released, a released sample changes nothing but
debounce bookkeeping. -/
theorem idle_poll (g : Graphics) (p : Poll) (d : Device)
    (hcur : d.buttonState.currentlyPressed = false) (hraw : p.pinReading = false) :
    (handleButtonInput g p d).2 = [] ∧ (pollState g p d).display = d.display ∧
      (pollState g p d).buttonState.currentlyPressed = false ∧
      (pollState g p d).buttonState.previouslyPressed = false := by
  rcases d with ⟨⟨cur, prev, ps, rs, ld, ae⟩, s⟩
  rcases p with ⟨t, raw, it⟩
  simp only at hcur hraw
  subst hcur hraw
  simp only [pollState, handleButtonInput, edgeStep, heldStep]
  simp

/-- The first pressed sample after a released one restarts the debounce
timer and cannot pass the debounce test. -/
theorem bounce_start_poll (g : Graphics) (p : Poll) (d : Device)
    (hcur : d.buttonState.currentlyPressed = false)
    (hprev : d.buttonState.previouslyPressed = false) (hraw : p.pinReading = true) :
    (handleButtonInput g p d).2 = [] ∧ (pollState g p d).display = d.display ∧
      (pollState g p d).buttonState.currentlyPressed = false ∧
      (pollState g p d).buttonState.previouslyPressed = true ∧
      (pollState g p d).buttonState.lastDebounceTime = p.currentTime := by
  rcases d with ⟨⟨cur, prev, ps, rs, ld, ae⟩, s⟩
  rcases p with ⟨t, raw, it⟩
  simp only at hcur hraw hprev
  subst hcur hraw hprev
  simp [pollState, handleButtonInput, debounceStamp, sub32_self, DEBOUNCE_DELAY_MS]

/-- A further pressed sample inside the debounce window does not pass the
debounce test either. -/
theorem bounce_more_poll (g : Graphics) (p : Poll) (d : Device)
    (hcur : d.buttonState.currentlyPressed = false)
    (hprev : d.buttonState.previouslyPressed = true) (hraw : p.pinReading = true)
    (hwin : sub32 p.currentTime d.buttonState.lastDebounceTime ≤ DEBOUNCE_DELAY_MS) :
    (handleButtonInput g p d).2 = [] ∧ (pollState g p d).display = d.display ∧
      (pollState g p d).buttonState.currentlyPressed = false ∧
      (pollState g p d).buttonState.previouslyPressed = true ∧
      (pollState g p d).buttonState.lastDebounceTime = d.buttonState.lastDebounceTime := by
  rcases d with ⟨⟨cur, prev, ps, rs, ld, ae⟩, s⟩
  rcases p with ⟨t, raw, it⟩
  simp only at hcur hraw hprev hwin
  subst hcur hraw hprev
  have hn : ¬ DEBOUNCE_DELAY_MS < sub32 t ld := by omega
  simp [pollState, handleButtonInput, debounceStamp, hn]

/-- A poll that keeps a pressed button pressed keeps the start of the press. -/
theorem held_poll_pressStart (g : Graphics) (p : Poll) (d : Device)
    (hcur : d.buttonState.currentlyPressed = true)
    (hstay : (pollState g p d).buttonState.currentlyPressed = true) :
    (pollState g p d).buttonState.pressStartTimestamp = d.buttonState.pressStartTimestamp := by
  revert hstay
  rcases d with ⟨⟨cur, prev, ps, rs, ld, ae⟩, s⟩
  rcases p with ⟨t, raw, it⟩
  simp only at hcur
  subst hcur
  simp only [pollState, handleButtonInput, edgeStep, heldStep]
  cases raw <;> cases ae <;> simp <;> split_ifs <;> simp_all

/-! ## Gesture decoder: runs of polls -/

theorem runPolls_append (g : Graphics) (a b : List Poll) (d : Device) :
    runPolls g (a ++ b) d =
      ((runPolls g b (runPolls g a d).1).1, (runPolls g a d).2 ++ (runPolls g b (runPolls g a d).1).2) := by
  induction a generalizing d with
  | nil => simp [runPolls]
  | cons p a ih => simp [runPolls, ih, List.append_assoc]

theorem statesOf_append (g : Graphics) (a b : List Poll) (d : Device) :
    statesOf g (a ++ b) d = statesOf g a d ++ statesOf g b (runPolls g a d).1 := by
  induction a generalizing d with
  | nil => simp [statesOf, runPolls]
  | cons p a ih => simp [statesOf, runPolls, ih, pollState]

theorem noPressEdge_append (g : Graphics) (a b : List Poll) (d : Device) :
    noPressEdge g (a ++ b) d = (noPressEdge g a d && noPressEdge g b (runPolls g a d).1) := by
  induction a generalizing d with
  | nil => simp [noPressEdge, runPolls]
  | cons p a ih => simp [noPressEdge, runPolls, ih, pollState, Bool.and_assoc]

theorem holdBudget_le_one (d : Device) : holdBudget d ≤ 1 := by
  unfold holdBudget; split <;> omega

theorem holdCount_run (g : Graphics) (ps : List Poll) (d : Device)
    (h : noPressEdge g ps d = true) :
    holdCount (runPolls g ps d).2 + holdBudget (runPolls g ps d).1 ≤ holdBudget d := by
  induction ps generalizing d with
  | nil => simp [runPolls, holdCount]
  | cons p ps ih =>
    simp only [noPressEdge, Bool.and_eq_true, Bool.not_eq_true'] at h
    have h1 := holdCount_step g p d h.1
    have h2 := ih (pollState g p d) h.2
    simp only [runPolls, holdCount, List.countP_append] at *
    simp only [pollState] at *
    omega

theorem latched_run (g : Graphics) (ps : List Poll) (d : Device)
    (hae : d.buttonState.actionExecuted = true) (h : noPressEdge g ps d = true) :
    (runPolls g ps d).2 = [] ∧ (runPolls g ps d).1.display = d.display := by
  induction ps generalizing d with
  | nil => simp [runPolls]
  | cons p ps ih =>
    simp only [noPressEdge, Bool.and_eq_true, Bool.not_eq_true'] at h
    obtain ⟨hlog, hdisp, hae1⟩ := latched_poll g p d hae h.1
    obtain ⟨hlog2, hdisp2⟩ := ih (pollState g p d) hae1 h.2
    simp only [pollState] at *
    simp [runPolls, hlog, hlog2, hdisp2, hdisp]

theorem held_quiet_run (g : Graphics) (mid : List Poll) (d : Device)
    (hcur : d.buttonState.currentlyPressed = true)
    (hae : d.buttonState.actionExecuted = false)
    (hyoung : ∀ q ∈ mid, sub32 q.currentTime d.buttonState.pressStartTimestamp < HOLD_THRESHOLD_MS)
    (hstay : ∀ e ∈ statesOf g mid d, e.buttonState.currentlyPressed = true) :
    (runPolls g mid d).2 = [] ∧ (runPolls g mid d).1.display = d.display ∧
      (runPolls g mid d).1.buttonState.pressStartTimestamp = d.buttonState.pressStartTimestamp := by
  induction mid generalizing d with
  | nil => simp [runPolls]
  | cons q mid ih =>
    simp only [statesOf, List.mem_cons, forall_eq_or_imp] at hstay
    simp only [List.mem_cons, forall_eq_or_imp] at hyoung
    obtain ⟨hlog, hdisp, hae1, hps⟩ := held_quiet_poll g q d hcur hae hyoung.1 hstay.1
    have hy2 : ∀ r ∈ mid, sub32 r.currentTime (pollState g q d).buttonState.pressStartTimestamp
        < HOLD_THRESHOLD_MS := by
      intro r hr; rw [hps]; exact hyoung.2 r hr
    obtain ⟨hlog2, hdisp2, hps2⟩ := ih (pollState g q d) hstay.1 hae1 hy2 hstay.2
    simp only [pollState] at *
    simp [runPolls, hlog, hlog2, hdisp2, hdisp, hps2, hps]

theorem idle_run (g : Graphics) (ps : List Poll) (d : Device)
    (hcur : d.buttonState.currentlyPressed = false)
    (hraw : ∀ p ∈ ps, p.pinReading = false) :
    (∀ e ∈ statesOf g ps d, e.buttonState.currentlyPressed = false) ∧
      (runPolls g ps d).2 = [] ∧ (runPolls g ps d).1.display = d.display ∧
      (runPolls g ps d).1.buttonState.currentlyPressed = false ∧
      ((d.buttonState.previouslyPressed = false ∨ ps ≠ []) →
        (runPolls g ps d).1.buttonState.previouslyPressed = false) := by
  induction ps generalizing d with
  | nil => simp [runPolls, statesOf, hcur]
  | cons p ps ih =>
    simp only [List.mem_cons, forall_eq_or_imp] at hraw
    obtain ⟨hlog, hdisp, hc1, hp1⟩ := idle_poll g p d hcur hraw.1
    obtain ⟨hall, hlog2, hdisp2, hc2, hp2⟩ := ih (pollState g p d) hc1 hraw.2
    simp only [pollState] at *
    refine ⟨?_, ?_, ?_, ?_, ?_⟩
    · simp only [statesOf, List.mem_cons, forall_eq_or_imp, pollState]
      exact ⟨hc1, hall⟩
    · simp [runPolls, hlog, hlog2]
    · simp [runPolls, hdisp2, hdisp]
    · simpa [runPolls] using hc2
    · intro _
      simpa [runPolls] using hp2 (Or.inl hp1)

theorem bounce_run (g : Graphics) (ps : List Poll) (d : Device)
    (hcur : d.buttonState.currentlyPressed = false)
    (hprev : d.buttonState.previouslyPressed = true)
    (hraw : ∀ p ∈ ps, p.pinReading = true)
    (hwin : ∀ p ∈ ps, sub32 p.currentTime d.buttonState.lastDebounceTime ≤ DEBOUNCE_DELAY_MS) :
    (∀ e ∈ statesOf g ps d, e.buttonState.currentlyPressed = false) ∧
      (runPolls g ps d).2 = [] ∧ (runPolls g ps d).1.display = d.display ∧
      (runPolls g ps d).1.buttonState.currentlyPressed = false := by
  induction ps generalizing d with
  | nil => simp [runPolls, statesOf, hcur]
  | cons p ps ih =>
    simp only [List.mem_cons, forall_eq_or_imp] at hraw hwin
    obtain ⟨hlog, hdisp, hc1, hp1, hl1⟩ := bounce_more_poll g p d hcur hprev hraw.1 hwin.1
    have hw2 : ∀ q ∈ ps, sub32 q.currentTime (pollState g p d).buttonState.lastDebounceTime
        ≤ DEBOUNCE_DELAY_MS := by
      intro q hq; rw [hl1]; exact hwin.2 q hq
    obtain ⟨hall, hlog2, hdisp2, hc2⟩ := ih (pollState g p d) hc1 hp1 hraw.2 hw2
    simp only [pollState] at *
    refine ⟨?_, ?_, ?_, ?_⟩
    · simp only [statesOf, List.mem_cons, forall_eq_or_imp, pollState]
      exact ⟨hc1, hall⟩
    · simp [runPolls, hlog, hlog2]
    · simp [runPolls, hdisp2, hdisp]
    · simpa [runPolls] using hc2

theorem pairwise_le_getLast {α : Type} (f : α → Nat) (l : List α) (hne : l ≠ [])
    (h : l.Pairwise (fun a b => f a ≤ f b)) : ∀ x ∈ l, f x ≤ f (l.getLast hne) := by
  induction l with
  | nil => exact absurd rfl hne
  | cons a l ih =>
    intro x hx
    cases l with
    | nil =>
      simp only [List.mem_singleton] at hx
      subst hx
      simp
    | cons b l =>
      rw [List.getLast_cons (List.cons_ne_nil b l)]
      rw [List.pairwise_cons] at h
      rcases List.mem_cons.1 hx with hxa | hxl
      · subst hxa
        exact h.1 _ (List.getLast_mem _)
      · exact ih (List.cons_ne_nil b l) h.2 x hxl

theorem held_run_pressStart (g : Graphics) (mid : List Poll) (d : Device)
    (hcur : d.buttonState.currentlyPressed = true)
    (hstay : ∀ e ∈ statesOf g mid d, e.buttonState.currentlyPressed = true) :
    (runPolls g mid d).1.buttonState.pressStartTimestamp = d.buttonState.pressStartTimestamp := by
  induction mid generalizing d with
  | nil => simp [runPolls]
  | cons q mid ih =>
    simp only [statesOf, List.mem_cons, forall_eq_or_imp] at hstay
    have h1 := held_poll_pressStart g q d hcur hstay.1
    have h2 := ih (pollState g q d) hstay.1 hstay.2
    simp only [pollState] at *
    simp [runPolls, h2, h1]

/-! ## Gesture decoder: the claims -/

/-- C1 (the code departs from the claim). A press held for five seconds and
polled at held durations 2000 ms and 5000 ms: the claim and the header comment
of the sketch promise a power toggle with auto-cycling untouched; the decoder
fires ToggleAutoCycle at the first poll and latches, so the later poll does
nothing: auto-cycling is switched off and the brightness stays 255. -/
theorem long_hold_fires_auto_cycle :
    (setup sampleGraphics 0).display.enableAutomaticCycling = true ∧
    (setup sampleGraphics 0).display.brightness = 255 ∧
    (statesOf sampleGraphics longHoldPolls (setup sampleGraphics 0)).map
        (fun e => e.buttonState.currentlyPressed) = [false, true, true, true] ∧
    sub32 2100 100 = 2000 ∧ sub32 5100 100 = 5000 ∧
    (runPolls sampleGraphics longHoldPolls (setup sampleGraphics 0)).2 = [Action.ToggleAutoCycle] ∧
    (runPolls sampleGraphics longHoldPolls (setup sampleGraphics 0)).1.display.enableAutomaticCycling
        = false ∧
    (runPolls sampleGraphics longHoldPolls (setup sampleGraphics 0)).1.display.brightness = 255 := by
  decide

/-- C2, counterexample. A press whose release is debounced at 1100 ms after
the millisecond counter has wrapped: press edge at 100 ms, held poll at
2100 ms, raw release at 1000 ms, release edge at 1100 ms. The duration seen at
the release is `1100 - 100 = 1000`, between 800 and 2000, yet the press has
carried out ToggleAutoCycle and `enableAutomaticCycling` has changed. -/
theorem wrapped_press_has_acted :
    beforePressEdge.buttonState.currentlyPressed = false ∧
    (pollState sampleGraphics ⟨100, true, 100⟩ beforePressEdge).buttonState.currentlyPressed
      = true ∧
    (statesOf sampleGraphics wrappedPressMid
        (pollState sampleGraphics ⟨100, true, 100⟩ beforePressEdge)).map
      (fun e => e.buttonState.currentlyPressed) = [true, true] ∧
    (pollState sampleGraphics ⟨1100, false, 1100⟩ wrappedPressState).buttonState.currentlyPressed
      = false ∧
    sub32 1100 wrappedPressState.buttonState.pressStartTimestamp = 1000 ∧
    (runPolls sampleGraphics (⟨100, true, 100⟩ :: wrappedPressMid ++ [⟨1100, false, 1100⟩])
      beforePressEdge).2 = [Action.ToggleAutoCycle] ∧
    beforePressEdge.display.enableAutomaticCycling = true ∧
    (runPolls sampleGraphics (⟨100, true, 100⟩ :: wrappedPressMid ++ [⟨1100, false, 1100⟩])
      beforePressEdge).1.display.enableAutomaticCycling = false := by
  decide

/-- C2, as amended. A poll `p` that detects a debounced release edge in state
`d`, with `dur = p.currentTime - pressStartTimestamp` modulo 2^32. If the latch
is clear and `dur < 800`, the poll carries out exactly one action: AdvanceImage
(the display becomes `advanceToNextImage`) when the brightness is positive,
WakeDisplay (only the brightness changes, to the remembered level) when it is
zero. If `800 ≤ dur < 2000` the poll carries out no action; and when none of
the held polls `mid` of the press is later than the release on the wrapping
clock (the press has not outlasted a wrap of the counter), the whole press
(press-edge poll `p0`, held polls `mid`, release poll `p`) carries out none and
ends with the display it started with. -/
theorem release_tap_or_nothing (g : Graphics) (p : Poll) (d : Device)
    (hcur : d.buttonState.currentlyPressed = true)
    (hrel : (pollState g p d).buttonState.currentlyPressed = false) :
    (d.buttonState.actionExecuted = false →
      sub32 p.currentTime d.buttonState.pressStartTimestamp < TAP_THRESHOLD_MS →
        (0 < d.display.brightness →
          handleButtonInput g p d =
            (⟨{ d.buttonState with currentlyPressed := false, releaseTimestamp := p.currentTime },
              advanceToNextImage g p.initTime d.display⟩, [Action.AdvanceImage])) ∧
        (d.display.brightness = 0 →
          handleButtonInput g p d =
            (⟨{ d.buttonState with currentlyPressed := false, releaseTimestamp := p.currentTime },
              { d.display with brightness := wakeLevel d.display }⟩, [Action.WakeDisplay]))) ∧
    (TAP_THRESHOLD_MS ≤ sub32 p.currentTime d.buttonState.pressStartTimestamp →
      sub32 p.currentTime d.buttonState.pressStartTimestamp < HOLD_THRESHOLD_MS →
        handleButtonInput g p d =
          (⟨{ d.buttonState with currentlyPressed := false, releaseTimestamp := p.currentTime },
            d.display⟩, []) ∧
        ∀ (d0 : Device) (p0 : Poll) (mid : List Poll),
          d0.buttonState.currentlyPressed = false →
          (pollState g p0 d0).buttonState.currentlyPressed = true →
          (∀ e ∈ statesOf g mid (pollState g p0 d0), e.buttonState.currentlyPressed = true) →
          (runPolls g (p0 :: mid) d0).1 = d →
          (∀ q ∈ mid, sub32 q.currentTime p0.currentTime ≤ sub32 p.currentTime p0.currentTime) →
            (runPolls g (p0 :: mid ++ [p]) d0).2 = [] ∧
            (runPolls g (p0 :: mid ++ [p]) d0).1.display = d0.display) := by
  obtain ⟨hdeb, hraw, hprev⟩ := release_poll_inv g p d hcur hrel
  refine ⟨fun hae hdur => ⟨fun hb => ?_, fun hb => ?_⟩, fun h800 h2000 => ⟨?_, ?_⟩⟩
  · exact release_tap_advance g p d hdeb hraw hprev hcur hae hdur hb
  · exact release_tap_wake g p d hdeb hraw hprev hcur hae hdur hb
  · exact release_slow g p d hdeb hraw hprev hcur h800
  · intro d0 p0 mid h0 h1 hstay hd hle
    obtain ⟨hlog0, hdisp0, hae0, hps0⟩ := press_edge_poll g p0 d0 h0 h1
    have hdm : (runPolls g mid (pollState g p0 d0)).1 = d := by
      simpa [runPolls, pollState] using hd
    have hps : d.buttonState.pressStartTimestamp = p0.currentTime := by
      rw [← hdm, held_run_pressStart g mid _ h1 hstay, hps0]
    rw [hps] at h800 h2000
    have hyoung : ∀ q ∈ mid, sub32 q.currentTime (pollState g p0 d0).buttonState.pressStartTimestamp
        < HOLD_THRESHOLD_MS := by
      intro q hq
      have hq1 := hle q hq
      rw [hps0]
      omega
    obtain ⟨hlogm, hdispm, _⟩ := held_quiet_run g mid _ h1 hae0 hyoung hstay
    have hrelp := release_slow g p d hdeb hraw hprev hcur (by rw [hps]; exact h800)
    have hlog : (runPolls g (p0 :: mid) d0).2 = [] := by
      simp only [runPolls]
      simp only [pollState] at hlog0 hlogm
      simp [hlog0, hlogm]
    have hone : runPolls g [p] d = handleButtonInput g p d := by
      simp [runPolls]
    have hsplit : p0 :: mid ++ [p] = (p0 :: mid) ++ [p] := rfl
    rw [hsplit, runPolls_append, hd, hlog, hone, hrelp]
    refine ⟨rfl, ?_⟩
    show d.display = d0.display
    rw [← hdm, hdispm, hdisp0]

/-- The sample press let go after 200 ms (one AdvanceImage) and after 900 ms
(nothing at all). -/
theorem release_tap_or_nothing_witness :
    (lettingGoAt 200).buttonState.currentlyPressed = true ∧
    (pollState sampleGraphics ⟨300, false, 300⟩ (lettingGoAt 200)).buttonState.currentlyPressed
      = false ∧
    (handleButtonInput sampleGraphics ⟨300, false, 300⟩ (lettingGoAt 200)).2
      = [Action.AdvanceImage] ∧
    sub32 1000 slowPressState.buttonState.pressStartTimestamp = 900 ∧
    (runPolls sampleGraphics (⟨100, true, 100⟩ :: [⟨900, false, 900⟩] ++ [⟨1000, false, 1000⟩])
      beforePressEdge).2 = [] :=
  ⟨by decide, by decide,
    congrArg Prod.snd
      (((release_tap_or_nothing sampleGraphics ⟨300, false, 300⟩ (lettingGoAt 200)
        (by decide) (by decide)).1 (by decide) (by decide)).1 (by decide)),
    by decide,
    ((((release_tap_or_nothing sampleGraphics ⟨1000, false, 1000⟩ slowPressState
        (by decide) (by decide)).2 (by decide) (by decide)).2
      beforePressEdge ⟨100, true, 100⟩ [⟨900, false, 900⟩]
      (by decide) (by decide) (by decide) rfl (by decide))).1⟩

/-- C3. A press opened by the press-edge poll `p0`, followed by any polls `ps`
up to (not including) the next debounced press edge: the polls carry out at
most one hold action in total, and once the latch `actionExecuted` is set
(after `p0` and the polls `a`), the remaining polls `b` carry out no action and
leave the display, hence the brightness and `enableAutomaticCycling`, as it
was. -/
theorem hold_action_once_per_press (g : Graphics) (d0 : Device) (p0 : Poll) (ps : List Poll)
    (h0 : d0.buttonState.currentlyPressed = false)
    (h1 : (pollState g p0 d0).buttonState.currentlyPressed = true)
    (hno : noPressEdge g ps (pollState g p0 d0) = true) :
    holdCount (runPolls g (p0 :: ps) d0).2 ≤ 1 ∧
    ∀ a b : List Poll, ps = a ++ b →
      (runPolls g (p0 :: a) d0).1.buttonState.actionExecuted = true →
        (runPolls g b (runPolls g (p0 :: a) d0).1).2 = [] ∧
        (runPolls g (p0 :: ps) d0).1.display = (runPolls g (p0 :: a) d0).1.display ∧
        (runPolls g (p0 :: ps) d0).1.display.brightness
          = (runPolls g (p0 :: a) d0).1.display.brightness ∧
        (runPolls g (p0 :: ps) d0).1.display.enableAutomaticCycling
          = (runPolls g (p0 :: a) d0).1.display.enableAutomaticCycling := by
  obtain ⟨hlog0, -, -, -⟩ := press_edge_poll g p0 d0 h0 h1
  constructor
  · have hrun := holdCount_run g ps (pollState g p0 d0) hno
    have hb := holdBudget_le_one (pollState g p0 d0)
    simp only [pollState] at hrun hb
    simp only [runPolls, hlog0, List.nil_append]
    omega
  · intro a b hab hae
    subst hab
    rw [noPressEdge_append, Bool.and_eq_true] at hno
    have hda : (runPolls g (p0 :: a) d0).1 = (runPolls g a (pollState g p0 d0)).1 := by
      simp [runPolls, pollState]
    rw [hda] at hae ⊢
    obtain ⟨hlog, hdisp⟩ := latched_run g b _ hae hno.2
    have hall : (runPolls g (p0 :: (a ++ b)) d0).1
        = (runPolls g b (runPolls g a (pollState g p0 d0)).1).1 := by
      simp [runPolls, pollState, runPolls_append]
    rw [hall, hdisp]
    exact ⟨hlog, rfl, rfl, rfl⟩

/-- The sample press held for nine seconds and polled three times past the
hold thresholds. -/
theorem hold_action_once_per_press_witness :
    holdCount (runPolls sampleGraphics
      (⟨100, true, 100⟩ :: [⟨2100, true, 2100⟩, ⟨5100, true, 5100⟩, ⟨9000, true, 9000⟩])
      beforePressEdge).2 ≤ 1 :=
  (hold_action_once_per_press sampleGraphics beforePressEdge ⟨100, true, 100⟩
    [⟨2100, true, 2100⟩, ⟨5100, true, 5100⟩, ⟨9000, true, 9000⟩]
    (by decide) (by decide) (by decide)).1

/-- C4, counterexample. A state with the debounced button released that still
remembers a pressed raw sample taken at 0 ms: one pressed poll at 60 ms, a run
whose first and last timestamps coincide, sets `currentlyPressed`. -/
theorem stale_pressed_sample_completes_debounce :
    beforePressEdge.buttonState.currentlyPressed = false ∧
    beforePressEdge.buttonState.previouslyPressed = true ∧
    beforePressEdge.buttonState.lastDebounceTime = 0 ∧
    (pollState sampleGraphics ⟨60, true, 60⟩ beforePressEdge).buttonState.currentlyPressed
      = true := by
  decide

/-- C4, as amended. From a state whose debounced button is released and whose
last raw sample was released (or which is followed first by at least one
released poll), a sequence of polls with non-decreasing 32-bit timestamps in
which the pin reads pressed only during one run `first :: more`, whose first
and last timestamps differ by less than DEBOUNCE_DELAY_MS: no poll of the
sequence sets `currentlyPressed`, no action is carried out and the display is
unchanged. -/
theorem short_press_absorbed (g : Graphics) (d : Device)
    (pre : List Poll) (first : Poll) (more post : List Poll)
    (hcur : d.buttonState.currentlyPressed = false)
    (hprev : d.buttonState.previouslyPressed = false ∨ pre ≠ [])
    (hpre : ∀ p ∈ pre, p.pinReading = false)
    (hrun : ∀ p ∈ first :: more, p.pinReading = true)
    (hpost : ∀ p ∈ post, p.pinReading = false)
    (hmono : (pre ++ (first :: more) ++ post).Pairwise
      (fun a b => a.currentTime ≤ b.currentTime))
    (hrange : ∀ p ∈ pre ++ (first :: more) ++ post, p.currentTime < 4294967296)
    (hshort : ((first :: more).getLast (List.cons_ne_nil first more)).currentTime
      - first.currentTime < DEBOUNCE_DELAY_MS) :
    (∀ e ∈ statesOf g (pre ++ (first :: more) ++ post) d,
        e.buttonState.currentlyPressed = false) ∧
      (runPolls g (pre ++ (first :: more) ++ post) d).2 = [] ∧
      (runPolls g (pre ++ (first :: more) ++ post) d).1.display = d.display := by
  -- the released polls before the run
  obtain ⟨hall1, hlog1, hdisp1, hc1, hp1⟩ := idle_run g pre d hcur hpre
  have hp1 := hp1 hprev
  -- the first pressed sample restarts the debounce timer
  simp only [List.mem_cons, forall_eq_or_imp] at hrun
  obtain ⟨hlog2, hdisp2, hc2, hp2, hl2⟩ :=
    bounce_start_poll g first (runPolls g pre d).1 hc1 hp1 hrun.1
  -- the other pressed samples stay inside the debounce window
  have hpw := (List.pairwise_append.1 (List.pairwise_append.1 hmono).1).2.1
  have hwin : ∀ p ∈ more, sub32 p.currentTime
      (pollState g first (runPolls g pre d).1).buttonState.lastDebounceTime ≤ DEBOUNCE_DELAY_MS := by
    intro p hp
    rw [hl2]
    have hlast := pairwise_le_getLast Poll.currentTime (first :: more)
      (List.cons_ne_nil first more) hpw p (List.mem_cons_of_mem _ hp)
    have hfirst := (List.pairwise_cons.1 hpw).1 p hp
    have hlt := hrange p (by simp [hp])
    rw [sub32_of_le hfirst hlt]
    omega
  obtain ⟨hall3, hlog3, hdisp3, hc3⟩ :=
    bounce_run g more (pollState g first (runPolls g pre d).1) hc2 hp2 hrun.2 hwin
  -- the released polls after the run
  obtain ⟨hall4, hlog4, hdisp4, -, -⟩ :=
    idle_run g post (runPolls g more (pollState g first (runPolls g pre d).1)).1 hc3 hpost
  have hcons : ∀ (x : Device), runPolls g (first :: more) x
      = ((runPolls g more (pollState g first x)).1,
          (handleButtonInput g first x).2 ++ (runPolls g more (pollState g first x)).2) := by
    intro x; simp [runPolls, pollState]
  refine ⟨?_, ?_, ?_⟩
  · intro e he
    rw [statesOf_append, statesOf_append, List.mem_append, List.mem_append] at he
    rcases he with (he | he) | he
    · exact hall1 e he
    · simp only [statesOf, List.mem_cons] at he
      rcases he with he | he
      · rw [he]; exact hc2
      · exact hall3 e he
    · rw [runPolls_append, hcons] at he
      exact hall4 e he
  · rw [runPolls_append, runPolls_append, hcons]
    simp [hlog1, hlog2, hlog3, hlog4]
  · rw [runPolls_append, runPolls_append, hcons]
    simp only
    rw [hdisp4, hdisp3, hdisp2, hdisp1]

/-- A 49 ms bounce between released samples. -/
theorem short_press_absorbed_witness :
    (runPolls sampleGraphics
      ([⟨10, false, 10⟩] ++ ((⟨1000, true, 1000⟩ : Poll) :: [⟨1020, true, 1020⟩, ⟨1049, true, 1049⟩])
        ++ [⟨1050, false, 1050⟩, ⟨1200, false, 1200⟩, ⟨9000, false, 9000⟩])
      (setup sampleGraphics 0)).2 = [] :=
  (short_press_absorbed sampleGraphics (setup sampleGraphics 0)
    [⟨10, false, 10⟩] ⟨1000, true, 1000⟩ [⟨1020, true, 1020⟩, ⟨1049, true, 1049⟩]
    [⟨1050, false, 1050⟩, ⟨1200, false, 1200⟩, ⟨9000, false, 9000⟩]
    (by decide) (by decide) (by decide) (by decide) (by decide) (by decide) (by decide)
    (by decide)).2.1

/-! ## Scanline renderer: closed forms of the four loops -/

theorem inc8_of_lt {x : Nat} (h : x < 255) : inc8 x = x + 1 := by
  unfold inc8; omega

theorem readByte_lt (m : Memory) (a : Nat) : readByte m a < 256 := by
  unfold readByte; omega

theorem truecolorLoop_eq (n : Nat) (pixels : Memory) (base : Nat) (hn : n ≤ 255) :
    ∀ (k l fuel : Nat), l + k = n → k < fuel →
      truecolorLoop n pixels fuel (base + 3 * l) l =
        some ((List.range' l k).map (truecolorPixel pixels base)) := by
  intro k
  induction k with
  | zero =>
    intro l fuel hl hf
    obtain ⟨f, rfl⟩ : ∃ f, fuel = f + 1 := ⟨fuel - 1, by omega⟩
    have : ¬ l < n := by omega
    simp [truecolorLoop, this]
  | succ k ih =>
    intro l fuel hl hf
    obtain ⟨f, rfl⟩ : ∃ f, fuel = f + 1 := ⟨fuel - 1, by omega⟩
    have hlt : l < n := by omega
    have hinc : inc8 l = l + 1 := inc8_of_lt (by omega)
    have hptr : base + 3 * l + 3 = base + 3 * (l + 1) := by ring
    simp only [truecolorLoop, hlt, if_true, hinc, hptr]
    rw [ih (l + 1) f (by omega) (by omega)]
    simp [List.range'_succ, truecolorPixel, Nat.add_assoc]

theorem palette8Loop_eq (n : Nat) (palette pixels : Memory) (base : Nat) (hn : n ≤ 255) :
    ∀ (k l fuel : Nat), l + k = n → k < fuel →
      palette8Loop n palette pixels fuel (base + l) l =
        some ((List.range' l k).map (palette8Pixel palette pixels base)) := by
  intro k
  induction k with
  | zero =>
    intro l fuel hl hf
    obtain ⟨f, rfl⟩ : ∃ f, fuel = f + 1 := ⟨fuel - 1, by omega⟩
    have : ¬ l < n := by omega
    simp [palette8Loop, this]
  | succ k ih =>
    intro l fuel hl hf
    obtain ⟨f, rfl⟩ : ∃ f, fuel = f + 1 := ⟨fuel - 1, by omega⟩
    have hlt : l < n := by omega
    have hinc : inc8 l = l + 1 := inc8_of_lt (by omega)
    have hb := readByte_lt pixels (base + l)
    have hoff : readByte pixels (base + l) * 3 % 65536 = 3 * readByte pixels (base + l) := by
      omega
    simp only [palette8Loop, hlt, if_true, hinc, hoff, Nat.add_assoc]
    rw [ih (l + 1) f (by omega) (by omega)]
    simp [List.range'_succ, palette8Pixel, Nat.add_assoc]

theorem palette4Loop_eq (n : Nat) (clt pixels : Memory) (base : Nat) (hn : n ≤ 254) :
    ∀ (k m fuel : Nat), m + k = (n + 1) / 2 → k < fuel →
      palette4Loop n clt pixels fuel (base + m) (2 * m) =
        some ((List.range' (2 * m) (2 * k)).map (palette4Pixel clt pixels base)) := by
  intro k
  induction k with
  | zero =>
    intro m fuel hm hf
    obtain ⟨f, rfl⟩ : ∃ f, fuel = f + 1 := ⟨fuel - 1, by omega⟩
    have : ¬ 2 * m < n := by omega
    simp [palette4Loop, this]
  | succ k ih =>
    intro m fuel hm hf
    obtain ⟨f, rfl⟩ : ∃ f, fuel = f + 1 := ⟨fuel - 1, by omega⟩
    have hlt : 2 * m < n := by omega
    have hinc1 : inc8 (2 * m) = 2 * m + 1 := inc8_of_lt (by omega)
    have hinc2 : inc8 (2 * m + 1) = 2 * (m + 1) := by
      rw [inc8_of_lt (by omega)]; ring
    have hlen : 2 * (k + 1) = (2 * k + 1) + 1 := by ring
    have hd0 : 2 * m / 2 = m := by omega
    have hd1 : (2 * m + 1) / 2 = m := by omega
    have hm0 : 2 * m % 2 = 0 := by omega
    have hm1 : (2 * m + 1) % 2 = 1 := by omega
    simp only [palette4Loop, hlt, if_true, hinc1, hinc2, Nat.add_assoc]
    rw [ih (m + 1) f (by omega) (by omega), hlen]
    simp [List.range'_succ, palette4Pixel, hd0, hd1, hm0, hm1, Nat.add_assoc, Nat.mul_add]

theorem palette1Bits_eq (clt : Memory) :
    ∀ (n b l : Nat), l < 256 →
      palette1Bits clt n b l =
        ((List.range' 0 n).map (fun k => ⟨(l + k) % 256, cacheEntry clt ((b >>> k) &&& 1)⟩),
          (l + n) % 256) := by
  intro n
  induction n with
  | zero => intro b l hl; simp [palette1Bits]; omega
  | succ n ih =>
    intro b l hl
    have hl0 : l % 256 = l := by omega
    simp only [palette1Bits]
    rw [ih (b >>> 1) (inc8 l) (by unfold inc8; omega)]
    have hshift : ∀ k, (b >>> 1) >>> k = b >>> (1 + k) := by
      intro k; rw [← Nat.shiftRight_add]
    have hidx : ∀ k, (inc8 l + k) % 256 = (l + (1 + k)) % 256 := by
      intro k; unfold inc8; omega
    have hlast : (inc8 l + n) % 256 = (l + (n + 1)) % 256 := by
      unfold inc8; omega
    have hr : List.range' 1 n = List.map (fun k => 1 + k) (List.range' 0 n) := by
      rw [List.map_add_range']
    rw [List.range'_succ, Nat.zero_add, hr]
    simp only [List.map_cons, List.map_map, Function.comp_def, hshift, hidx, hlast,
      Nat.add_zero, hl0, Nat.shiftRight_zero, Nat.add_comm 1 n]


theorem palette1Bytes_eq (clt pixels : Memory) (base : Nat) :
    ∀ (m j l : Nat), l < 256 →
      palette1Bytes clt pixels m (base + j) l =
        (List.range' 0 (8 * m)).map (fun i =>
          ⟨(l + i) % 256,
            cacheEntry clt ((readByte pixels (base + j + i / 8) >>> (i % 8)) &&& 1)⟩) := by
  intro m
  induction m with
  | zero => intro j l hl; simp [palette1Bytes]
  | succ m ih =>
    intro j l hl
    simp only [palette1Bytes]
    rw [palette1Bits_eq clt 8 _ l hl]
    simp only
    rw [show base + j + 1 = base + (j + 1) from by ring, ih (j + 1) ((l + 8) % 256) (by omega)]
    have hlen : 8 * (m + 1) = 8 * m + 8 := by ring
    have hr : List.range' 8 (8 * m) = List.map (fun k => 8 + k) (List.range' 0 (8 * m)) := by
      rw [List.map_add_range']
    rw [hlen, ← List.range'_append_1 0 8 (8 * m), Nat.zero_add, List.map_append, hr, List.map_map]
    have hfront : ∀ k ∈ List.range' 0 8,
        (⟨(l + k) % 256, cacheEntry clt ((readByte pixels (base + j) >>> k) &&& 1)⟩ : PixelWrite)
          = ⟨(l + k) % 256,
              cacheEntry clt ((readByte pixels (base + j + k / 8) >>> (k % 8)) &&& 1)⟩ := by
      intro k hk
      have hk8 : k < 8 := by
        have := (List.mem_range'_1.1 hk).2
        omega
      have h1 : k / 8 = 0 := by omega
      have h2 : k % 8 = k := by omega
      rw [h1, h2, Nat.add_zero]
    have hback : ∀ i ∈ List.range' 0 (8 * m),
        (⟨((l + 8) % 256 + i) % 256,
            cacheEntry clt ((readByte pixels (base + (j + 1) + i / 8) >>> (i % 8)) &&& 1)⟩ : PixelWrite)
          = ⟨(l + (8 + i)) % 256,
              cacheEntry clt ((readByte pixels (base + j + (8 + i) / 8) >>> ((8 + i) % 8)) &&& 1)⟩ := by
      intro i _
      have h1 : (8 + i) / 8 = 1 + i / 8 := by omega
      have h2 : (8 + i) % 8 = i % 8 := by omega
      have h3 : ((l + 8) % 256 + i) % 256 = (l + (8 + i)) % 256 := by omega
      rw [h1, h2, h3, Nat.add_assoc base j, Nat.add_assoc base, Nat.add_assoc j]
    rw [List.map_congr_left hfront, List.map_congr_left hback]
    rfl

theorem lastWrite_concat (ws : List PixelWrite) (w : PixelWrite) (i : Nat) :
    lastWrite (ws ++ [w]) i = if w.index = i then some w.rgb else lastWrite ws i := by
  simp [lastWrite, List.foldl_append]

/-- In a pass whose call number `i` addresses LED `i`, LED `i` ends with the
colour of call number `i`, and LEDs past the end are never addressed. -/
theorem lastWrite_map_range (F : Nat → PixelWrite) (hF : ∀ i, (F i).index = i) (M i : Nat) :
    lastWrite ((List.range M).map F) i = if i < M then some (F i).rgb else none := by
  induction M with
  | zero => simp [lastWrite]
  | succ M ih =>
    rw [List.range_succ, List.map_append, List.map_singleton, lastWrite_concat, ih, hF]
    by_cases h : M = i
    · subst h; simp
    · have : (i < M + 1) = (i < M) := by
        apply propext; omega
      simp [h, this]

theorem getElem?_map_range (F : Nat → PixelWrite) (M i : Nat) (hi : i < M) :
    ((List.range M).map F)[i]? = some (F i) := by
  simp [List.getElem?_map, List.getElem?_range hi]

theorem palette8Loop_diverges (n : Nat) (palette pixels : Memory) (hn : 256 ≤ n) :
    ∀ (fuel dp l : Nat), l < 256 → palette8Loop n palette pixels fuel dp l = none := by
  intro fuel
  induction fuel with
  | zero => intro dp l _; rfl
  | succ f ih =>
    intro dp l hl
    have hlt : l < n := by omega
    simp only [palette8Loop, hlt, if_true]
    rw [ih _ _ (by unfold inc8; omega)]
    rfl

theorem truecolorLoop_diverges (n : Nat) (pixels : Memory) (hn : 256 ≤ n) :
    ∀ (fuel dp l : Nat), l < 256 → truecolorLoop n pixels fuel dp l = none := by
  intro fuel
  induction fuel with
  | zero => intro dp l _; rfl
  | succ f ih =>
    intro dp l hl
    have hlt : l < n := by omega
    simp only [truecolorLoop, hlt, if_true]
    rw [ih _ _ (by unfold inc8; omega)]
    rfl

/-! ## Scanline renderer: one pass of each format -/

theorem render_palette1 (g : Graphics) (fuel : Nat) (s : Display)
    (hfmt : s.activeImageFormat = ImageFormat.PALETTE1) (hn : g.NUM_LEDS / 8 ≤ 32) :
    renderScanline g fuel s =
      some ((List.range (8 * (g.NUM_LEDS / 8))).map
        (palette1Pixel s.colorLookupTable s.pointerToImagePixelData
          (s.currentScanlineIndex * g.NUM_LEDS / 8))) := by
  have hm : g.NUM_LEDS / 8 % 256 = g.NUM_LEDS / 8 := by omega
  simp only [renderScanline, hfmt, hm]
  have h := palette1Bytes_eq s.colorLookupTable s.pointerToImagePixelData
    (s.currentScanlineIndex * g.NUM_LEDS / 8) (g.NUM_LEDS / 8) 0 0 (by omega)
  rw [Nat.add_zero] at h
  rw [h, List.range_eq_range']
  congr 1
  apply List.map_congr_left
  intro i hi
  have hi' : i < 8 * (g.NUM_LEDS / 8) := by
    have := (List.mem_range'_1.1 hi).2
    omega
  have h256 : i < 256 := by omega
  simp [palette1Pixel, Nat.mod_eq_of_lt h256]

theorem render_palette4 (g : Graphics) (fuel : Nat) (s : Display)
    (hfmt : s.activeImageFormat = ImageFormat.PALETTE4) (hn : g.NUM_LEDS ≤ 254)
    (hfuel : g.NUM_LEDS < fuel) :
    renderScanline g fuel s =
      some ((List.range (2 * ((g.NUM_LEDS + 1) / 2))).map
        (palette4Pixel s.colorLookupTable s.pointerToImagePixelData
          (s.currentScanlineIndex * g.NUM_LEDS / 2))) := by
  simp only [renderScanline, hfmt]
  have h := palette4Loop_eq g.NUM_LEDS s.colorLookupTable s.pointerToImagePixelData
    (s.currentScanlineIndex * g.NUM_LEDS / 2) hn ((g.NUM_LEDS + 1) / 2) 0 fuel (by omega) (by omega)
  rw [Nat.add_zero, Nat.mul_zero] at h
  rw [h, List.range_eq_range']

theorem render_palette8 (g : Graphics) (fuel : Nat) (s : Display)
    (hfmt : s.activeImageFormat = ImageFormat.PALETTE8) (hn : g.NUM_LEDS ≤ 255)
    (hfuel : g.NUM_LEDS < fuel) :
    renderScanline g fuel s =
      some ((List.range g.NUM_LEDS).map
        (palette8Pixel s.pointerToImagePalette s.pointerToImagePixelData
          (s.currentScanlineIndex * g.NUM_LEDS))) := by
  simp only [renderScanline, hfmt]
  have h := palette8Loop_eq g.NUM_LEDS s.pointerToImagePalette s.pointerToImagePixelData
    (s.currentScanlineIndex * g.NUM_LEDS) hn g.NUM_LEDS 0 fuel (by omega) hfuel
  rw [Nat.add_zero] at h
  rw [h, List.range_eq_range']

theorem render_truecolor (g : Graphics) (fuel : Nat) (s : Display)
    (hfmt : s.activeImageFormat = ImageFormat.TRUECOLOR) (hn : g.NUM_LEDS ≤ 255)
    (hfuel : g.NUM_LEDS < fuel) :
    renderScanline g fuel s =
      some ((List.range g.NUM_LEDS).map
        (truecolorPixel s.pointerToImagePixelData (s.currentScanlineIndex * g.NUM_LEDS * 3))) := by
  simp only [renderScanline, hfmt]
  have h := truecolorLoop_eq g.NUM_LEDS s.pointerToImagePixelData
    (s.currentScanlineIndex * g.NUM_LEDS * 3) hn g.NUM_LEDS 0 fuel (by omega) hfuel
  rw [Nat.mul_zero, Nat.add_zero] at h
  rw [h, List.range_eq_range']

/-- C6, counterexample. The byte `0b10110010` with palette black, white does
not decode to white, white, black, black, white, black, black, white. -/
theorem palette1_sample_byte_not_as_claimed :
    readByte (displayOf sampleGraphics 0).pointerToImagePixelData 0 = 0b10110010 ∧
    (renderScanline sampleGraphics 0 (displayOf sampleGraphics 0)).map (List.map PixelWrite.rgb)
      ≠ some [(255, 255, 255), (255, 255, 255), (0, 0, 0), (0, 0, 0),
              (255, 255, 255), (0, 0, 0), (0, 0, 0), (255, 255, 255)] := by
  decide

/-- C6, as amended. On an 8-LED strip, PALETTE1 decoding of the single byte
`0b10110010` with the palette black, white sets LEDs 0 to 7, in this order, to
black, white, black, black, white, white, black, white: bit 0 first. -/
theorem palette1_sample_byte :
    sampleGraphics.NUM_LEDS = 8 ∧
    readByte (displayOf sampleGraphics 0).pointerToImagePixelData 0 = 0b10110010 ∧
    cacheEntry (displayOf sampleGraphics 0).colorLookupTable 0 = (0, 0, 0) ∧
    cacheEntry (displayOf sampleGraphics 0).colorLookupTable 1 = (255, 255, 255) ∧
    renderScanline sampleGraphics 0 (displayOf sampleGraphics 0) =
      some [⟨0, (0, 0, 0)⟩, ⟨1, (255, 255, 255)⟩, ⟨2, (0, 0, 0)⟩, ⟨3, (0, 0, 0)⟩,
            ⟨4, (255, 255, 255)⟩, ⟨5, (255, 255, 255)⟩, ⟨6, (0, 0, 0)⟩, ⟨7, (255, 255, 255)⟩] := by
  decide

/-- C8, counterexample. On a strip of 256 LEDs the TRUECOLOR loop never ends:
its 8-bit `ledIndex` is always below `NUM_LEDS`. -/
theorem truecolor_never_ends_at_256 :
    ¬ ∃ fuel, (renderScanline (withLeds 256) fuel (displayOf (withLeds 256) 3)).isSome = true := by
  rintro ⟨fuel, h⟩
  have hnone : renderScanline (withLeds 256) fuel (displayOf (withLeds 256) 3) = none :=
    truecolorLoop_diverges 256 _ (Nat.le_refl _) fuel _ 0 (by decide)
  rw [hnone] at h
  exact Bool.noConfusion h

/-- C8, as amended. On a strip of at most 255 LEDs a TRUECOLOR pass ends and
call number `i < NUM_LEDS` is `setPixelColor(i, p[base+3i], p[base+3i+1],
p[base+3i+2])` with `base = s * NUM_LEDS * 3`: red, green, blue in byte order,
no palette; that colour is what LED `i` holds after the pass. With three LEDs
the scanline `[10,20,30, 40,50,60, 70,80,90]` gives exactly `(10,20,30)`,
`(40,50,60)`, `(70,80,90)` on LEDs 0, 1, 2. -/
theorem truecolor_reads_rgb_in_order (g : Graphics) (fuel : Nat) (s : Display)
    (hfmt : s.activeImageFormat = ImageFormat.TRUECOLOR) (hn : g.NUM_LEDS ≤ 255)
    (hfuel : g.NUM_LEDS < fuel) :
    (∃ ws, renderScanline g fuel s = some ws ∧ ws.length = g.NUM_LEDS ∧
      ∀ i base, i < g.NUM_LEDS → base = s.currentScanlineIndex * g.NUM_LEDS * 3 →
        ws[i]? = some ⟨i, (readByte s.pointerToImagePixelData (base + 3 * i),
          readByte s.pointerToImagePixelData (base + 3 * i + 1),
          readByte s.pointerToImagePixelData (base + 3 * i + 2))⟩ ∧
        lastWrite ws i = some (readByte s.pointerToImagePixelData (base + 3 * i),
          readByte s.pointerToImagePixelData (base + 3 * i + 1),
          readByte s.pointerToImagePixelData (base + 3 * i + 2))) ∧
    renderScanline threeLedTruecolor 4 (displayOf threeLedTruecolor 0)
      = some [⟨0, (10, 20, 30)⟩, ⟨1, (40, 50, 60)⟩, ⟨2, (70, 80, 90)⟩] := by
  refine ⟨⟨_, render_truecolor g fuel s hfmt hn hfuel, by simp, ?_⟩, by decide⟩
  intro i base hi hb
  subst hb
  constructor
  · rw [getElem?_map_range _ _ _ hi]
    rfl
  · rw [lastWrite_map_range _ (fun _ => rfl), if_pos hi]
    rfl

/-- The three-LED example, through the general statement. -/
theorem truecolor_reads_rgb_in_order_witness :
    ∃ ws, renderScanline threeLedTruecolor 4 (displayOf threeLedTruecolor 0) = some ws ∧
      ws.length = threeLedTruecolor.NUM_LEDS ∧
      ∀ i base, i < threeLedTruecolor.NUM_LEDS →
        base = (displayOf threeLedTruecolor 0).currentScanlineIndex * threeLedTruecolor.NUM_LEDS * 3 →
        ws[i]? = some ⟨i,
          (readByte (displayOf threeLedTruecolor 0).pointerToImagePixelData (base + 3 * i),
          readByte (displayOf threeLedTruecolor 0).pointerToImagePixelData (base + 3 * i + 1),
          readByte (displayOf threeLedTruecolor 0).pointerToImagePixelData (base + 3 * i + 2))⟩ ∧
        lastWrite ws i = some
          (readByte (displayOf threeLedTruecolor 0).pointerToImagePixelData (base + 3 * i),
          readByte (displayOf threeLedTruecolor 0).pointerToImagePixelData (base + 3 * i + 1),
          readByte (displayOf threeLedTruecolor 0).pointerToImagePixelData (base + 3 * i + 2)) :=
  (truecolor_reads_rgb_in_order threeLedTruecolor 4 (displayOf threeLedTruecolor 0)
    rfl (by decide) (by decide)).1

/-- C9, counterexample. On a strip of 256 LEDs the PALETTE8 loop never ends:
its 8-bit `ledIndex` is always below `NUM_LEDS`. -/
theorem palette8_never_ends_at_256 :
    ¬ ∃ fuel, (renderScanline (withLeds 256) fuel (displayOf (withLeds 256) 2)).isSome = true := by
  rintro ⟨fuel, h⟩
  have hnone : renderScanline (withLeds 256) fuel (displayOf (withLeds 256) 2) = none :=
    palette8Loop_diverges 256 _ _ (Nat.le_refl _) fuel _ 0 (by decide)
  rw [hnone] at h
  exact Bool.noConfusion h

/-- C9, as amended. On a strip of at most 255 LEDs a PALETTE8 pass ends and
call number `i < NUM_LEDS` is `setPixelColor(i, pal[3x], pal[3x+1], pal[3x+2])`,
where `x` is the byte at pixel offset `s * NUM_LEDS + i` and `pal` the image's
own palette buffer; that colour is what LED `i` holds after the pass. The
16-bit offset `3 x` does not wrap and `3 x + 2 ≤ 767`. The pass does not depend
on the contents of `colorLookupTable`. -/
theorem palette8_reads_image_palette (g : Graphics) (fuel : Nat) (s : Display)
    (hfmt : s.activeImageFormat = ImageFormat.PALETTE8) (hn : g.NUM_LEDS ≤ 255)
    (hfuel : g.NUM_LEDS < fuel) :
    (∃ ws, renderScanline g fuel s = some ws ∧ ws.length = g.NUM_LEDS ∧
      ∀ i x, i < g.NUM_LEDS →
        x = readByte s.pointerToImagePixelData (s.currentScanlineIndex * g.NUM_LEDS + i) →
          ws[i]? = some ⟨i, (readByte s.pointerToImagePalette (3 * x),
            readByte s.pointerToImagePalette (3 * x + 1),
            readByte s.pointerToImagePalette (3 * x + 2))⟩ ∧
          lastWrite ws i = some (readByte s.pointerToImagePalette (3 * x),
            readByte s.pointerToImagePalette (3 * x + 1),
            readByte s.pointerToImagePalette (3 * x + 2)) ∧
          x * 3 % 65536 = 3 * x ∧ 3 * x + 2 ≤ 767) ∧
    (∀ clt : Memory,
      renderScanline g fuel { s with colorLookupTable := clt } = renderScanline g fuel s) := by
  refine ⟨⟨_, render_palette8 g fuel s hfmt hn hfuel, by simp, ?_⟩, ?_⟩
  · intro i x hi hx
    subst hx
    have hb := readByte_lt s.pointerToImagePixelData (s.currentScanlineIndex * g.NUM_LEDS + i)
    refine ⟨?_, ?_, by omega, by omega⟩
    · rw [getElem?_map_range _ _ _ hi]
      rfl
    · rw [lastWrite_map_range _ (fun _ => rfl), if_pos hi]
      rfl
  · intro clt
    simp only [renderScanline, hfmt]

/-- The PALETTE8 sample image on the 8-LED strip: the pass is the same
whatever the palette cache holds. -/
theorem palette8_reads_image_palette_witness :
    (renderScanline sampleGraphics 9 (displayOf sampleGraphics 2)).isSome = true ∧
    ∀ clt : Memory,
      renderScanline sampleGraphics 9 { displayOf sampleGraphics 2 with colorLookupTable := clt }
        = renderScanline sampleGraphics 9 (displayOf sampleGraphics 2) :=
  ⟨by decide,
    (palette8_reads_image_palette sampleGraphics 9 (displayOf sampleGraphics 2)
      rfl (by decide) (by decide)).2⟩

/-- C10, counterexample. With `NUM_LEDS = 12` a PALETTE1 pass makes eight
calls, to LEDs 0..7, not twelve: no run of the pass addresses LEDs 0..11 once
each. -/
theorem palette1_pass_short_at_12 :
    ¬ ∃ fuel ws, renderScanline (withLeds 12) fuel (displayOf (withLeds 12) 0) = some ws ∧
      ws.map PixelWrite.index = List.range (withLeds 12).NUM_LEDS := by
  rintro ⟨fuel, ws, h, hidx⟩
  rw [render_palette1 (withLeds 12) fuel _ rfl (by decide)] at h
  have hlen := congrArg List.length hidx
  rw [← Option.some.inj h] at hlen
  simp at hlen
  revert hlen
  decide

/-- C10, as amended. For each format and each strip length its loop covers
exactly (PALETTE1: a multiple of 8 up to 256; PALETTE4: even, up to 254;
PALETTE8 and TRUECOLOR: up to 255) and every scanline index, one render pass
ends and makes exactly `NUM_LEDS` calls of `setPixelColor`, addressed to LEDs
0, 1, ..., `NUM_LEDS - 1` in this order, each once. -/
theorem render_pass_covers_strip (g : Graphics) (fuel : Nat) (s : Display)
    (hlen : supportedLength s.activeImageFormat g.NUM_LEDS = true)
    (hfuel : g.NUM_LEDS < fuel) :
    ∃ ws, renderScanline g fuel s = some ws ∧ ws.length = g.NUM_LEDS ∧
      ws.map PixelWrite.index = List.range g.NUM_LEDS := by
  have hidx : ∀ (F : Nat → PixelWrite), (∀ i, (F i).index = i) → ∀ M,
      ((List.range M).map F).map PixelWrite.index = List.range M := by
    intro F hF M
    rw [List.map_map]
    conv_rhs => rw [← List.map_id (List.range M)]
    exact List.map_congr_left (fun i _ => hF i)
  cases hfmt : s.activeImageFormat <;>
    simp only [hfmt, supportedLength, Bool.and_eq_true, beq_iff_eq, decide_eq_true_eq] at hlen
  · have h8 : 8 * (g.NUM_LEDS / 8) = g.NUM_LEDS := by omega
    refine ⟨_, render_palette1 g fuel s hfmt (by omega), by simp [h8], ?_⟩
    rw [hidx _ (fun _ => rfl), h8]
  · have h2 : 2 * ((g.NUM_LEDS + 1) / 2) = g.NUM_LEDS := by omega
    refine ⟨_, render_palette4 g fuel s hfmt (by omega) hfuel, by simp [h2], ?_⟩
    rw [hidx _ (fun _ => rfl), h2]
  · refine ⟨_, render_palette8 g fuel s hfmt hlen hfuel, by simp, ?_⟩
    rw [hidx _ (fun _ => rfl)]
  · refine ⟨_, render_truecolor g fuel s hfmt hlen hfuel, by simp, ?_⟩
    rw [hidx _ (fun _ => rfl)]

/-- The PALETTE4 sample image on the 8-LED strip. -/
theorem render_pass_covers_strip_witness :
    ∃ ws, renderScanline sampleGraphics 9 (displayOf sampleGraphics 1) = some ws ∧
      ws.length = sampleGraphics.NUM_LEDS ∧
      ws.map PixelWrite.index = List.range sampleGraphics.NUM_LEDS :=
  render_pass_covers_strip sampleGraphics 9 (displayOf sampleGraphics 1) (by decide) (by decide)

/-! ## Image sequencer: facts and claims -/

theorem initializeCurrentImage_activeImageIndex (g : Graphics) (now : Nat) (s : Display) :
    (initializeCurrentImage g now s).activeImageIndex = s.activeImageIndex := by
  simp only [initializeCurrentImage]; split_ifs <;> rfl

theorem initializeCurrentImage_currentScanlineIndex (g : Graphics) (now : Nat) (s : Display) :
    (initializeCurrentImage g now s).currentScanlineIndex = 0 := by
  simp only [initializeCurrentImage]; split_ifs <;> rfl

theorem initializeCurrentImage_timestamp (g : Graphics) (now : Nat) (s : Display) :
    (initializeCurrentImage g now s).timestampOfLastImageChange = now := by
  simp only [initializeCurrentImage]

theorem initializeCurrentImage_brightness (g : Graphics) (now : Nat) (s : Display) :
    (initializeCurrentImage g now s).brightness = s.brightness := by
  simp only [initializeCurrentImage]; split_ifs <;> rfl

theorem initializeCurrentImage_enableAutomaticCycling (g : Graphics) (now : Nat) (s : Display) :
    (initializeCurrentImage g now s).enableAutomaticCycling = s.enableAutomaticCycling := by
  simp only [initializeCurrentImage]; split_ifs <;> rfl

theorem initializeCurrentImage_secondsBetweenPatterns (g : Graphics) (now : Nat) (s : Display) :
    (initializeCurrentImage g now s).secondsBetweenPatterns = s.secondsBetweenPatterns := by
  simp only [initializeCurrentImage]; split_ifs <;> rfl

theorem initializeCurrentImage_currentIntensityIndex (g : Graphics) (now : Nat) (s : Display) :
    (initializeCurrentImage g now s).currentIntensityIndex = s.currentIntensityIndex := by
  simp only [initializeCurrentImage]; split_ifs <;> rfl

theorem advanceToNextImage_activeImageIndex (g : Graphics) (now : Nat) (s : Display) :
    (advanceToNextImage g now s).activeImageIndex =
      if inc8 s.activeImageIndex ≥ g.NUM_IMAGES then 0 else inc8 s.activeImageIndex := by
  simp only [advanceToNextImage, initializeCurrentImage_activeImageIndex]
  split_ifs <;> rfl

theorem advanceToNextImage_currentScanlineIndex (g : Graphics) (now : Nat) (s : Display) :
    (advanceToNextImage g now s).currentScanlineIndex = 0 := by
  simp only [advanceToNextImage, initializeCurrentImage_currentScanlineIndex]

theorem advanceToNextImage_timestamp (g : Graphics) (now : Nat) (s : Display) :
    (advanceToNextImage g now s).timestampOfLastImageChange = now := by
  simp only [advanceToNextImage, initializeCurrentImage_timestamp]

theorem advanceToNextImage_brightness (g : Graphics) (now : Nat) (s : Display) :
    (advanceToNextImage g now s).brightness = s.brightness := by
  simp only [advanceToNextImage, initializeCurrentImage_brightness]; split_ifs <;> rfl

theorem advanceToNextImage_enableAutomaticCycling (g : Graphics) (now : Nat) (s : Display) :
    (advanceToNextImage g now s).enableAutomaticCycling = s.enableAutomaticCycling := by
  simp only [advanceToNextImage, initializeCurrentImage_enableAutomaticCycling]; split_ifs <;> rfl

theorem advanceToNextImage_secondsBetweenPatterns (g : Graphics) (now : Nat) (s : Display) :
    (advanceToNextImage g now s).secondsBetweenPatterns = s.secondsBetweenPatterns := by
  simp only [advanceToNextImage, initializeCurrentImage_secondsBetweenPatterns]; split_ifs <;> rfl

theorem advanceToNextImage_currentIntensityIndex (g : Graphics) (now : Nat) (s : Display) :
    (advanceToNextImage g now s).currentIntensityIndex = s.currentIntensityIndex := by
  simp only [advanceToNextImage, initializeCurrentImage_currentIntensityIndex]; split_ifs <;> rfl

theorem advanceToNextImage_index_mod (g : Graphics) (now : Nat) (s : Display)
    (hN : g.NUM_IMAGES ≤ 255) (hi : s.activeImageIndex < g.NUM_IMAGES) :
    (advanceToNextImage g now s).activeImageIndex = (s.activeImageIndex + 1) % g.NUM_IMAGES := by
  rw [advanceToNextImage_activeImageIndex, inc8_of_lt (by omega)]
  split_ifs with h
  · have : s.activeImageIndex + 1 = g.NUM_IMAGES := by omega
    rw [this, Nat.mod_self]
  · rw [Nat.mod_eq_of_lt (by omega)]

theorem advanceRepeatedly_index (g : Graphics) (hN : g.NUM_IMAGES ≤ 255) :
    ∀ (times : List Nat) (s : Display), s.activeImageIndex < g.NUM_IMAGES →
      (advanceRepeatedly g times s).activeImageIndex
        = (s.activeImageIndex + times.length) % g.NUM_IMAGES := by
  intro times
  induction times with
  | nil => intro s hi; simp [advanceRepeatedly, Nat.mod_eq_of_lt hi]
  | cons t ts ih =>
    intro s hi
    have hstep := advanceToNextImage_index_mod g t s hN hi
    have hlt : (advanceToNextImage g t s).activeImageIndex < g.NUM_IMAGES := by
      rw [hstep]; exact Nat.mod_lt _ (by omega)
    simp only [advanceRepeatedly, List.length_cons]
    rw [ih _ hlt, hstep, Nat.mod_add_mod, Nat.add_assoc, Nat.add_comm 1]

/-- C11. With `1 ≤ NUM_IMAGES ≤ 255` and `activeImageIndex = i < NUM_IMAGES`,
one call of `advanceToNextImage` sets `activeImageIndex` to
`(i + 1) mod NUM_IMAGES`, which is below `NUM_IMAGES`, and
`currentScanlineIndex` to 0; `NUM_IMAGES` calls in a row bring
`activeImageIndex` back to `i` (and leave the scanline cursor at 0). -/
theorem advance_wraps_modulo_image_count (g : Graphics) (s : Display)
    (h1 : 1 ≤ g.NUM_IMAGES) (hN : g.NUM_IMAGES ≤ 255)
    (hi : s.activeImageIndex < g.NUM_IMAGES) :
    (∀ now : Nat,
      (advanceToNextImage g now s).activeImageIndex = (s.activeImageIndex + 1) % g.NUM_IMAGES ∧
      (advanceToNextImage g now s).activeImageIndex < g.NUM_IMAGES ∧
      (advanceToNextImage g now s).currentScanlineIndex = 0) ∧
    (∀ times : List Nat, times.length = g.NUM_IMAGES →
      (advanceRepeatedly g times s).activeImageIndex = s.activeImageIndex ∧
      (advanceRepeatedly g times s).currentScanlineIndex = 0) := by
  constructor
  · intro now
    have hstep := advanceToNextImage_index_mod g now s hN hi
    exact ⟨hstep, by rw [hstep]; exact Nat.mod_lt _ (by omega),
      advanceToNextImage_currentScanlineIndex g now s⟩
  · intro times hlen
    constructor
    · rw [advanceRepeatedly_index g hN times s hi, hlen, Nat.add_mod_right,
        Nat.mod_eq_of_lt hi]
    · have hne : times ≠ [] := by
        intro h; rw [h] at hlen; simp at hlen; omega
      have hlast : ∀ (ts : List Nat) (x : Display), ts ≠ [] →
          (advanceRepeatedly g ts x).currentScanlineIndex = 0 := by
        intro ts
        induction ts with
        | nil => intro x h; exact absurd rfl h
        | cons t ts ih =>
          intro x _
          cases ts with
          | nil => exact advanceToNextImage_currentScanlineIndex g t x
          | cons u us => exact ih _ (List.cons_ne_nil u us)
      exact hlast times s hne

/-- Four calls on the four-image sample table, started at image 2. -/
theorem advance_wraps_modulo_image_count_witness :
    (advanceToNextImage sampleGraphics 7 (displayOf sampleGraphics 3)).activeImageIndex = 0 ∧
    (advanceRepeatedly sampleGraphics [10, 20, 30, 40] (displayOf sampleGraphics 2)).activeImageIndex
      = 2 :=
  ⟨by
    have h := ((advance_wraps_modulo_image_count sampleGraphics (displayOf sampleGraphics 3)
      (by decide) (by decide) (by decide)).1 7).1
    simpa using h,
   ((advance_wraps_modulo_image_count sampleGraphics (displayOf sampleGraphics 2)
      (by decide) (by decide) (by decide)).2 [10, 20, 30, 40] rfl).1⟩

/-- C15. `initializeCurrentImage` reloads the palette cache by format: for
PALETTE1 bytes 0..5 of `colorLookupTable` (entries 0 and 1) become the first
two RGB triples of the image palette and every later byte (entries 2..15) is
unchanged; for PALETTE4 bytes 0..47 (all 16 entries) become the palette's 16
triples; for PALETTE8 and TRUECOLOR the cache is unchanged. In every case
`currentScanlineIndex` becomes 0 and `timestampOfLastImageChange` the current
time; format, scanline count and the two pointers are those of the image
descriptor. -/
theorem initialize_reloads_cache_by_format (g : Graphics) (now : Nat) (s : Display) :
    ((g.images s.activeImageIndex).type = ImageFormat.PALETTE1 →
      (∀ a, a < 6 → (initializeCurrentImage g now s).colorLookupTable a
          = readByte (g.images s.activeImageIndex).palette a) ∧
      (∀ a, 6 ≤ a → (initializeCurrentImage g now s).colorLookupTable a = s.colorLookupTable a) ∧
      (∀ i, i < 2 → cacheEntry (initializeCurrentImage g now s).colorLookupTable i
          = cacheEntry (g.images s.activeImageIndex).palette i) ∧
      (∀ i, 2 ≤ i → cacheEntry (initializeCurrentImage g now s).colorLookupTable i
          = cacheEntry s.colorLookupTable i)) ∧
    ((g.images s.activeImageIndex).type = ImageFormat.PALETTE4 →
      (∀ a, a < 48 → (initializeCurrentImage g now s).colorLookupTable a
          = readByte (g.images s.activeImageIndex).palette a) ∧
      (∀ i, i < 16 → cacheEntry (initializeCurrentImage g now s).colorLookupTable i
          = cacheEntry (g.images s.activeImageIndex).palette i)) ∧
    ((g.images s.activeImageIndex).type = ImageFormat.PALETTE8 ∨
        (g.images s.activeImageIndex).type = ImageFormat.TRUECOLOR →
      (initializeCurrentImage g now s).colorLookupTable = s.colorLookupTable) ∧
    (initializeCurrentImage g now s).currentScanlineIndex = 0 ∧
    (initializeCurrentImage g now s).timestampOfLastImageChange = now ∧
    (initializeCurrentImage g now s).activeImageFormat = (g.images s.activeImageIndex).type ∧
    (initializeCurrentImage g now s).activeImageIndex = s.activeImageIndex := by
  refine ⟨fun h => ?_, fun h => ?_, fun h => ?_,
    initializeCurrentImage_currentScanlineIndex g now s,
    initializeCurrentImage_timestamp g now s, ?_,
    initializeCurrentImage_activeImageIndex g now s⟩
  · have hclt : (initializeCurrentImage g now s).colorLookupTable
        = memcpy_P s.colorLookupTable (g.images s.activeImageIndex).palette 6 := by
      simp [initializeCurrentImage, h]
    rw [hclt]
    refine ⟨fun a ha => by simp [memcpy_P, ha], fun a ha => ?_, fun i hi => ?_, fun i hi => ?_⟩
    · have : ¬ a < 6 := by omega
      simp [memcpy_P, this]
    · have h0 : 3 * i < 6 := by omega
      have h1 : 3 * i + 1 < 6 := by omega
      have h2 : 3 * i + 2 < 6 := by omega
      simp only [cacheEntry, readByte, memcpy_P, h0, h1, h2, if_true, Nat.mod_mod]
    · have h0 : ¬ 3 * i < 6 := by omega
      have h1 : ¬ 3 * i + 1 < 6 := by omega
      have h2 : ¬ 3 * i + 2 < 6 := by omega
      simp only [cacheEntry, readByte, memcpy_P, h0, h1, h2, if_false]
  · have hclt : (initializeCurrentImage g now s).colorLookupTable
        = memcpy_P s.colorLookupTable (g.images s.activeImageIndex).palette 48 := by
      simp [initializeCurrentImage, h]
    rw [hclt]
    refine ⟨fun a ha => by simp [memcpy_P, ha], fun i hi => ?_⟩
    have h0 : 3 * i < 48 := by omega
    have h1 : 3 * i + 1 < 48 := by omega
    have h2 : 3 * i + 2 < 48 := by omega
    simp only [cacheEntry, readByte, memcpy_P, h0, h1, h2, if_true, Nat.mod_mod]
  · rcases h with h | h <;> simp [initializeCurrentImage, h]
  · simp only [initializeCurrentImage]; split_ifs <;> rfl

/-! ## Frame scheduler: automatic cycling -/

/-- C13. With `enableAutomaticCycling = true` and `secondsBetweenPatterns = 12`
the auto-advance step at time `now` leaves the display alone while
`(now - timestampOfLastImageChange) mod 2^32 < 12000`, and otherwise is exactly
one call of `advanceToNextImage`: the image index becomes the next index, the
timestamp of the last change becomes the time read by that call, cycling stays
enabled with the same period, and every later step within 12000 ms of the new
timestamp leaves the display alone again. -/
theorem auto_cycle_every_12_seconds (g : Graphics) (now initTime : Nat) (s : Display)
    (hen : s.enableAutomaticCycling = true) (hsec : s.secondsBetweenPatterns = 12) :
    (sub32 now s.timestampOfLastImageChange < 12000 → autoCycleStep g now initTime s = s) ∧
    (12000 ≤ sub32 now s.timestampOfLastImageChange →
      autoCycleStep g now initTime s = advanceToNextImage g initTime s ∧
      (autoCycleStep g now initTime s).activeImageIndex
        = (if inc8 s.activeImageIndex ≥ g.NUM_IMAGES then 0 else inc8 s.activeImageIndex) ∧
      (autoCycleStep g now initTime s).timestampOfLastImageChange = initTime ∧
      (autoCycleStep g now initTime s).enableAutomaticCycling = true ∧
      (autoCycleStep g now initTime s).secondsBetweenPatterns = 12 ∧
      ∀ later laterInit : Nat, sub32 later initTime < 12000 →
        autoCycleStep g later laterInit (autoCycleStep g now initTime s)
          = autoCycleStep g now initTime s) := by
  have hper : s.secondsBetweenPatterns * 1000 % 4294967296 = 12000 := by rw [hsec]
  constructor
  · intro hlt
    have : ¬ 12000 ≤ sub32 now s.timestampOfLastImageChange := by omega
    simp [autoCycleStep, hen, hper, this]
  · intro hge
    have hstep : autoCycleStep g now initTime s = advanceToNextImage g initTime s := by
      simp [autoCycleStep, hen, hper, hge]
    rw [hstep]
    refine ⟨rfl, advanceToNextImage_activeImageIndex g initTime s,
      advanceToNextImage_timestamp g initTime s, ?_, ?_, ?_⟩
    · rw [advanceToNextImage_enableAutomaticCycling, hen]
    · rw [advanceToNextImage_secondsBetweenPatterns, hsec]
    · intro later laterInit hlt
      have hn : ¬ 12000 ≤ sub32 later initTime := by omega
      simp [autoCycleStep, advanceToNextImage_enableAutomaticCycling,
        advanceToNextImage_secondsBetweenPatterns, advanceToNextImage_timestamp, hen, hsec, hn]

/-- The display left by `setup()` at 0 ms: nothing at 11999 ms, the next image
at 12000 ms. -/
theorem auto_cycle_every_12_seconds_witness :
    autoCycleStep sampleGraphics 11999 11999 (displayOf sampleGraphics 0)
      = displayOf sampleGraphics 0 ∧
    (autoCycleStep sampleGraphics 12000 12001 (displayOf sampleGraphics 0)).activeImageIndex = 1 ∧
    (autoCycleStep sampleGraphics 12000 12001 (displayOf sampleGraphics 0)).timestampOfLastImageChange
      = 12001 :=
  ⟨(auto_cycle_every_12_seconds sampleGraphics 11999 11999 (displayOf sampleGraphics 0)
      (by decide) (by decide)).1 (by decide),
   by
    have h := ((auto_cycle_every_12_seconds sampleGraphics 12000 12001 (displayOf sampleGraphics 0)
      (by decide) (by decide)).2 (by decide)).2.1
    simpa using h,
   ((auto_cycle_every_12_seconds sampleGraphics 12000 12001 (displayOf sampleGraphics 0)
      (by decide) (by decide)).2 (by decide)).2.2.1⟩

/-! ## Gesture decoder: one poll of a steadily pressed button -/

/-- C17. One poll in a state where the sample is pressed and stable (raw,
previous raw and debounced state all pressed, more than 50 ms since the last
raw change) and the latch is clear, with `h = now - pressStartTimestamp`
modulo 2^32. If `h ≥ 5000` the poll toggles the power (brightness 0 if it was
positive, else the remembered level), leaves `enableAutomaticCycling` and the
rest of the display alone and sets the latch; else if `h ≥ 2000` it negates
`enableAutomaticCycling`, leaves the brightness and the rest alone and sets the
latch; else it changes nothing at all. -/
theorem held_poll_by_threshold (g : Graphics) (p : Poll) (d : Device)
    (hraw : p.pinReading = true)
    (hprev : d.buttonState.previouslyPressed = true)
    (hcur : d.buttonState.currentlyPressed = true)
    (hdeb : DEBOUNCE_DELAY_MS < sub32 p.currentTime d.buttonState.lastDebounceTime)
    (hae : d.buttonState.actionExecuted = false) :
    (LONG_HOLD_THRESHOLD_MS ≤ sub32 p.currentTime d.buttonState.pressStartTimestamp →
      handleButtonInput g p d =
        (⟨{ d.buttonState with actionExecuted := true },
          { d.display with brightness :=
              if 0 < d.display.brightness then 0 else wakeLevel d.display }⟩,
          [Action.TogglePower])) ∧
    (sub32 p.currentTime d.buttonState.pressStartTimestamp < LONG_HOLD_THRESHOLD_MS →
      HOLD_THRESHOLD_MS ≤ sub32 p.currentTime d.buttonState.pressStartTimestamp →
      handleButtonInput g p d =
        (⟨{ d.buttonState with actionExecuted := true },
          { d.display with enableAutomaticCycling := !d.display.enableAutomaticCycling }⟩,
          [Action.ToggleAutoCycle])) ∧
    (sub32 p.currentTime d.buttonState.pressStartTimestamp < HOLD_THRESHOLD_MS →
      handleButtonInput g p d = (d, [])) := by
  rcases d with ⟨⟨cur, prev, ps, rs, ld, ae⟩, s⟩
  rcases p with ⟨t, raw, it⟩
  simp only at hraw hprev hcur hdeb hae
  subst hraw hprev hcur hae
  refine ⟨fun h => ?_, fun h1 h2 => ?_, fun h => ?_⟩
  · simp only at h
    by_cases hb : 0 < s.brightness
    · simp [handleButtonInput, edgeStep, heldStep, debounceStamp, hdeb, h, hb]
    · simp [handleButtonInput, edgeStep, heldStep, debounceStamp, hdeb, h, hb]
  · simp only at h1 h2
    have hn : ¬ LONG_HOLD_THRESHOLD_MS ≤ sub32 t ps := by omega
    simp [handleButtonInput, edgeStep, heldStep, debounceStamp, hdeb, hn, h2]
  · simp only at h
    have hn1 : ¬ LONG_HOLD_THRESHOLD_MS ≤ sub32 t ps := by
      simp only [LONG_HOLD_THRESHOLD_MS, HOLD_THRESHOLD_MS] at *; omega
    have hn2 : ¬ HOLD_THRESHOLD_MS ≤ sub32 t ps := by omega
    simp [handleButtonInput, edgeStep, heldStep, debounceStamp, hdeb, hn1, hn2]

/-- The sample press, debounced at 100 ms and not yet acted upon. -/
theorem held_poll_by_threshold_witness :
    (handleButtonInput sampleGraphics ⟨5100, true, 5100⟩ heldDevice).2 = [Action.TogglePower] ∧
    (handleButtonInput sampleGraphics ⟨5100, true, 5100⟩ heldDevice).1.display.brightness = 0 ∧
    (handleButtonInput sampleGraphics ⟨2100, true, 2100⟩ heldDevice).2 = [Action.ToggleAutoCycle] ∧
    handleButtonInput sampleGraphics ⟨1000, true, 1000⟩ heldDevice = (heldDevice, []) :=
  ⟨congrArg Prod.snd ((held_poll_by_threshold sampleGraphics ⟨5100, true, 5100⟩ heldDevice
      rfl (by decide) (by decide) (by decide) (by decide)).1 (by decide)),
   congrArg (fun r => r.1.display.brightness)
    ((held_poll_by_threshold sampleGraphics ⟨5100, true, 5100⟩ heldDevice
      rfl (by decide) (by decide) (by decide) (by decide)).1 (by decide)),
   congrArg Prod.snd ((held_poll_by_threshold sampleGraphics ⟨2100, true, 2100⟩ heldDevice
      rfl (by decide) (by decide) (by decide) (by decide)).2.1 (by decide) (by decide)),
   (held_poll_by_threshold sampleGraphics ⟨1000, true, 1000⟩ heldDevice
      rfl (by decide) (by decide) (by decide) (by decide)).2.2 (by decide)⟩

/-! ## Gesture decoder: before the first press edge -/

/-- A poll that finds and leaves the debounced button released carries out no
action and touches only `lastDebounceTime` and `previouslyPressed`. -/
theorem no_edge_poll (g : Graphics) (p : Poll) (d : Device)
    (hcur : d.buttonState.currentlyPressed = false)
    (hstay : (pollState g p d).buttonState.currentlyPressed = false) :
    (handleButtonInput g p d).2 = [] ∧ (pollState g p d).display = d.display ∧
      (pollState g p d).buttonState =
        { d.buttonState with
          lastDebounceTime := (pollState g p d).buttonState.lastDebounceTime
          previouslyPressed := p.pinReading } := by
  revert hstay
  rcases d with ⟨⟨cur, prev, ps, rs, ld, ae⟩, s⟩
  rcases p with ⟨t, raw, it⟩
  simp only at hcur
  subst hcur
  simp only [pollState, handleButtonInput, edgeStep, heldStep]
  cases raw
  · simp
  · simp
    split_ifs <;> simp_all

theorem no_edge_run (g : Graphics) (ps : List Poll) (d : Device)
    (hcur : d.buttonState.currentlyPressed = false)
    (hstay : ∀ e ∈ statesOf g ps d, e.buttonState.currentlyPressed = false) :
    (runPolls g ps d).2 = [] ∧ (runPolls g ps d).1.display = d.display ∧
      (runPolls g ps d).1.buttonState =
        { d.buttonState with
          lastDebounceTime := (runPolls g ps d).1.buttonState.lastDebounceTime
          previouslyPressed := (runPolls g ps d).1.buttonState.previouslyPressed } := by
  induction ps generalizing d with
  | nil => simp [runPolls]
  | cons p ps ih =>
    simp only [statesOf, List.mem_cons, forall_eq_or_imp] at hstay
    obtain ⟨hlog, hdisp, hb⟩ := no_edge_poll g p d hcur hstay.1
    obtain ⟨hlog2, hdisp2, hb2⟩ := ih (pollState g p d) hstay.1 hstay.2
    simp only [pollState] at *
    refine ⟨by simp [runPolls, hlog, hlog2], by simp [runPolls, hdisp2, hdisp], ?_⟩
    simp only [runPolls]
    rw [hb2, hb]

/-- C18. From a state whose debounced button is released (the initial button
state in particular), for any polls none of which has yet produced a debounced
press edge: no poll carries out an action, the display (brightness,
`enableAutomaticCycling`, `activeImageIndex`, `currentScanlineIndex` and the
rest) is unchanged, and of the button tracker only `lastDebounceTime` and
`previouslyPressed` may have changed. -/
theorem nothing_before_first_press_edge (g : Graphics) (ps : List Poll) (d : Device)
    (hcur : d.buttonState.currentlyPressed = false)
    (hstay : ∀ e ∈ statesOf g ps d, e.buttonState.currentlyPressed = false) :
    (runPolls g ps d).2 = [] ∧
    (runPolls g ps d).1.display = d.display ∧
    (runPolls g ps d).1.display.brightness = d.display.brightness ∧
    (runPolls g ps d).1.display.enableAutomaticCycling = d.display.enableAutomaticCycling ∧
    (runPolls g ps d).1.display.activeImageIndex = d.display.activeImageIndex ∧
    (runPolls g ps d).1.display.currentScanlineIndex = d.display.currentScanlineIndex ∧
    (runPolls g ps d).1.buttonState =
      { d.buttonState with
        lastDebounceTime := (runPolls g ps d).1.buttonState.lastDebounceTime
        previouslyPressed := (runPolls g ps d).1.buttonState.previouslyPressed } ∧
    ∀ a b : List Poll, ps = a ++ b → (runPolls g a d).2 = [] ∧ (runPolls g a d).1.display = d.display := by
  obtain ⟨hlog, hdisp, hb⟩ := no_edge_run g ps d hcur hstay
  refine ⟨hlog, hdisp, by rw [hdisp], by rw [hdisp], by rw [hdisp], by rw [hdisp], hb, ?_⟩
  intro a b hab
  subst hab
  have hsta : ∀ e ∈ statesOf g a d, e.buttonState.currentlyPressed = false := by
    intro e he
    exact hstay e (by rw [statesOf_append]; exact List.mem_append_left _ he)
  obtain ⟨hlog', hdisp', -⟩ := no_edge_run g a d hcur hsta
  exact ⟨hlog', hdisp'⟩

/-- From the state left by `setup()`: released samples, then a 40 ms bounce. -/
theorem nothing_before_first_press_edge_witness :
    (runPolls sampleGraphics
      [⟨5, false, 5⟩, ⟨900, false, 900⟩, ⟨1000, true, 1000⟩, ⟨1040, true, 1040⟩, ⟨1041, false, 1041⟩]
      (setup sampleGraphics 0)).2 = [] :=
  (nothing_before_first_press_edge sampleGraphics
    [⟨5, false, 5⟩, ⟨900, false, 900⟩, ⟨1000, true, 1000⟩, ⟨1040, true, 1040⟩, ⟨1041, false, 1041⟩]
    (setup sampleGraphics 0) (by decide) (by decide)).1

/-! ## Gesture decoder: independence of the clock origin -/

theorem sub32_shiftTime (c a b : Nat) : sub32 (shiftTime c a) (shiftTime c b) = sub32 a b := by
  unfold sub32 shiftTime; omega

/-- C20. Moving `pressStartTimestamp`, `releaseTimestamp`, `lastDebounceTime`
and the entry reading of `millis()` forward by the same offset `c` on the
wrapping 32-bit clock changes nothing in one poll but the clock origin: the
same actions are carried out, the display (brightness,
`enableAutomaticCycling`, image index and the rest) and the boolean fields of
the tracker are the same, and the three timestamps of the resulting tracker
are those of the unshifted run moved forward by `c`. -/
theorem poll_commutes_with_clock_shift (g : Graphics) (c : Nat) (p : Poll) (d : Device) :
    handleButtonInput g (shiftPoll c p) (shiftDevice c d) =
        (shiftDevice c (handleButtonInput g p d).1, (handleButtonInput g p d).2) ∧
    (handleButtonInput g (shiftPoll c p) (shiftDevice c d)).2 = (handleButtonInput g p d).2 ∧
    (pollState g (shiftPoll c p) (shiftDevice c d)).display = (pollState g p d).display ∧
    (pollState g (shiftPoll c p) (shiftDevice c d)).buttonState.currentlyPressed
      = (pollState g p d).buttonState.currentlyPressed ∧
    (pollState g (shiftPoll c p) (shiftDevice c d)).buttonState.previouslyPressed
      = (pollState g p d).buttonState.previouslyPressed ∧
    (pollState g (shiftPoll c p) (shiftDevice c d)).buttonState.actionExecuted
      = (pollState g p d).buttonState.actionExecuted ∧
    (pollState g (shiftPoll c p) (shiftDevice c d)).buttonState.pressStartTimestamp
      = shiftTime c (pollState g p d).buttonState.pressStartTimestamp ∧
    (pollState g (shiftPoll c p) (shiftDevice c d)).buttonState.releaseTimestamp
      = shiftTime c (pollState g p d).buttonState.releaseTimestamp ∧
    (pollState g (shiftPoll c p) (shiftDevice c d)).buttonState.lastDebounceTime
      = shiftTime c (pollState g p d).buttonState.lastDebounceTime := by
  have key : handleButtonInput g (shiftPoll c p) (shiftDevice c d) =
      (shiftDevice c (handleButtonInput g p d).1, (handleButtonInput g p d).2) := by
    rcases d with ⟨⟨cur, prev, ps, rs, ld, ae⟩, s⟩
    rcases p with ⟨t, raw, it⟩
    simp only [handleButtonInput, edgeStep, heldStep, debounceStamp, shiftPoll, shiftDevice,
      shiftTracker]
    cases cur <;> cases raw <;> cases prev <;> cases ae <;>
      simp [sub32_shiftTime, sub32_self] <;> split_ifs <;> simp_all [shiftTime]
  refine ⟨key, ?_, ?_, ?_, ?_, ?_, ?_, ?_, ?_⟩ <;> simp only [pollState, key] <;> rfl

/-! ## Brightness stays on the level table -/

theorem validBrightness_wakeLevel (s : Display) : validBrightness (wakeLevel s) := by
  unfold validBrightness wakeLevel
  by_cases h : s.currentIntensityIndex < intensityLevels.length
  · right
    rw [List.getD_eq_getElem _ _ h]
    exact List.getElem_mem _
  · left
    rw [List.getD_eq_default _ _ (by omega)]

/-- One poll sets the brightness, if at all, to 0 or to the remembered level. -/
theorem poll_brightness (g : Graphics) (p : Poll) (d : Device) :
    (pollState g p d).display.brightness = d.display.brightness ∨
      (pollState g p d).display.brightness = 0 ∨
      (pollState g p d).display.brightness = wakeLevel d.display := by
  rcases d with ⟨⟨cur, prev, ps, rs, ld, ae⟩, s⟩
  rcases p with ⟨t, raw, it⟩
  simp only [pollState, handleButtonInput, edgeStep, heldStep]
  cases cur <;> cases raw <;> cases ae <;> simp <;> split_ifs <;>
    simp_all [advanceToNextImage_brightness]

theorem poll_validBrightness (g : Graphics) (p : Poll) (d : Device)
    (h : validBrightness d.display.brightness) :
    validBrightness (pollState g p d).display.brightness := by
  rcases poll_brightness g p d with h1 | h1 | h1 <;> rw [h1]
  · exact h
  · exact Or.inl rfl
  · exact validBrightness_wakeLevel _

theorem runPolls_validBrightness (g : Graphics) (ps : List Poll) (d : Device)
    (h : validBrightness d.display.brightness) :
    validBrightness (runPolls g ps d).1.display.brightness := by
  induction ps generalizing d with
  | nil => exact h
  | cons p ps ih => exact ih _ (poll_validBrightness g p d h)

theorem waitLoop_validBrightness (g : Graphics) (samples : List (Nat × Poll)) (d : Device)
    (r : Device × List Action × Nat)
    (h : validBrightness d.display.brightness) (hr : waitLoop g samples d = some r) :
    validBrightness r.1.display.brightness := by
  induction samples generalizing d r with
  | nil => simp [waitLoop] at hr
  | cons sp rest ih =>
    rcases sp with ⟨m, p⟩
    simp only [waitLoop] at hr
    split_ifs at hr with hc
    · cases hrec : waitLoop g rest (handleButtonInput g p d).1 with
      | none => rw [hrec] at hr; simp at hr
      | some t =>
        rw [hrec] at hr
        simp only [Option.map_some', Option.some.injEq] at hr
        subst hr
        exact ih _ t (poll_validBrightness g p d h) hrec
    · simp only [Option.some.injEq] at hr
      subst hr
      exact h

theorem autoCycleStep_brightness (g : Graphics) (now initTime : Nat) (s : Display) :
    (autoCycleStep g now initTime s).brightness = s.brightness := by
  unfold autoCycleStep
  split_ifs <;> simp [advanceToNextImage_brightness]

theorem advanceScanline_brightness (s : Display) :
    (advanceScanline s).brightness = s.brightness := by
  simp only [advanceScanline]; split_ifs <;> rfl

theorem loop_validBrightness (g : Graphics) (fuel : Nat) (t : Tick) (d : Device)
    (r : Device × List PixelWrite × List Action)
    (h : validBrightness d.display.brightness) (hr : loop g fuel t d = some r) :
    validBrightness r.1.display.brightness := by
  simp only [loop] at hr
  cases hrend : renderScanline g fuel (autoCycleStep g t.currentMillis t.initTime d.display) with
  | none => rw [hrend] at hr; simp at hr
  | some ws =>
    rw [hrend] at hr
    simp only at hr
    cases hw : waitLoop g t.samples
        ⟨d.buttonState, advanceScanline (autoCycleStep g t.currentMillis t.initTime d.display)⟩ with
    | none => rw [hw] at hr; simp at hr
    | some w =>
      rw [hw] at hr
      simp only [Option.some.injEq] at hr
      subst hr
      have h0 : validBrightness (Device.mk d.buttonState
          (advanceScanline (autoCycleStep g t.currentMillis t.initTime d.display))).display.brightness := by
        simp only [advanceScanline_brightness, autoCycleStep_brightness]
        exact h
      exact waitLoop_validBrightness g t.samples _ w h0 hw

/-- C14. From a state whose brightness is 0 or one of the five levels
15, 31, 63, 127, 255, the brightness is again 0 or one of those levels after
every poll of `handleButtonInput` (any raw sample, any timestamp), after every
run of polls, and after every completed pass of `loop()`. -/
theorem brightness_stays_on_levels (g : Graphics) (d : Device)
    (h : validBrightness d.display.brightness) :
    (∀ b : Nat, validBrightness b ↔ b = 0 ∨ b = 15 ∨ b = 31 ∨ b = 63 ∨ b = 127 ∨ b = 255) ∧
    (∀ p : Poll, validBrightness (handleButtonInput g p d).1.display.brightness) ∧
    (∀ ps : List Poll, validBrightness (runPolls g ps d).1.display.brightness) ∧
    (∀ (fuel : Nat) (t : Tick) (r : Device × List PixelWrite × List Action),
      loop g fuel t d = some r → validBrightness r.1.display.brightness) := by
  refine ⟨fun b => ?_, fun p => poll_validBrightness g p d h,
    fun ps => runPolls_validBrightness g ps d h,
    fun fuel t r hr => loop_validBrightness g fuel t d r h hr⟩
  simp [validBrightness, intensityLevels]

/-- A completed pass of `loop()` from the state left by `setup()`, and a
five-second hold that switches the strip off. -/
theorem brightness_stays_on_levels_witness :
    (∃ r, loop sampleGraphics 9 sampleTick (setup sampleGraphics 0) = some r ∧
      validBrightness r.1.display.brightness) ∧
    validBrightness (runPolls sampleGraphics [⟨0, true, 0⟩, ⟨100, true, 100⟩, ⟨5100, true, 5100⟩]
      (setup sampleGraphics 0)).1.display.brightness :=
  ⟨by
    have hs : (loop sampleGraphics 9 sampleTick (setup sampleGraphics 0)).isSome = true := by
      decide
    obtain ⟨r, hr⟩ := Option.isSome_iff_exists.1 hs
    exact ⟨r, hr, (brightness_stays_on_levels sampleGraphics (setup sampleGraphics 0)
      (by decide)).2.2.2 9 sampleTick r hr⟩,
   (brightness_stays_on_levels sampleGraphics (setup sampleGraphics 0) (by decide)).2.2.1 _⟩

/-! ## Frame scheduler: the scanline cursor -/

theorem advanceScanline_totalScanlines (s : Display) :
    (advanceScanline s).totalScanlines = s.totalScanlines := by
  simp only [advanceScanline]; split_ifs <;> rfl

theorem advanceScanline_cursor (s : Display)
    (hL : s.totalScanlines < 65536) (hc : s.currentScanlineIndex < s.totalScanlines) :
    (advanceScanline s).currentScanlineIndex = (s.currentScanlineIndex + 1) % s.totalScanlines := by
  have hw : (s.currentScanlineIndex + 1) % 65536 = s.currentScanlineIndex + 1 := by omega
  simp only [advanceScanline, hw]
  split_ifs with h
  · have : s.currentScanlineIndex + 1 = s.totalScanlines := by
      simp only at h; omega
    simp only [this, Nat.mod_self]
  · simp only at h
    show s.currentScanlineIndex + 1 = _
    rw [Nat.mod_eq_of_lt (by omega)]

theorem iterate_advanceScanline (s : Display)
    (hL : s.totalScanlines < 65536) (hc : s.currentScanlineIndex < s.totalScanlines) :
    ∀ k, (Nat.iterate advanceScanline k s).totalScanlines = s.totalScanlines ∧
      (Nat.iterate advanceScanline k s).currentScanlineIndex
        = (s.currentScanlineIndex + k) % s.totalScanlines := by
  intro k
  induction k with
  | zero => exact ⟨rfl, (Nat.mod_eq_of_lt hc).symm⟩
  | succ k ih =>
    rw [Function.iterate_succ_apply']
    obtain ⟨ht, hcur⟩ := ih
    have hlt : (Nat.iterate advanceScanline k s).currentScanlineIndex
        < (Nat.iterate advanceScanline k s).totalScanlines := by
      rw [ht, hcur]; exact Nat.mod_lt _ (by omega)
    refine ⟨by rw [advanceScanline_totalScanlines, ht], ?_⟩
    rw [advanceScanline_cursor _ (by rw [ht]; exact hL) hlt, ht, hcur, Nat.mod_add_mod,
      Nat.add_assoc]

/-- The cursor values `c, c+1, ..., L-1, 0, ..., c-1`, as residues. -/
theorem wrapped_range (L c : Nat) (hc : c < L) :
    (List.range L).map (fun k => (c + k) % L) = List.range' c (L - c) ++ List.range c := by
  have happ : List.range' 0 (L - c) ++ List.range' (L - c) c = List.range' 0 L := by
    have h := List.range'_append_1 0 (L - c) c
    rw [Nat.zero_add] at h
    rw [h]
    congr 1; omega
  have hr1 : List.map (fun k => c + k) (List.range' 0 (L - c)) = List.range' c (L - c) := by
    simp
  have hr2 : List.map (fun k => (L - c) + k) (List.range' 0 c) = List.range' (L - c) c := by
    simp
  rw [List.range_eq_range', ← happ, List.map_append, ← hr1, ← hr2, List.map_map]
  congr 1
  · apply List.map_congr_left
    intro k hk
    have := (List.mem_range'_1.1 hk).2
    rw [Nat.mod_eq_of_lt (by omega)]
  · rw [List.range_eq_range']
    conv_rhs => rw [← List.map_id (List.range' 0 c)]
    apply List.map_congr_left
    intro k hk
    have hk' := (List.mem_range'_1.1 hk).2
    simp only [Function.comp, id]
    have : c + (L - c + k) = L + k := by omega
    rw [this, Nat.add_mod_left, Nat.mod_eq_of_lt (by omega)]

/-- A poll that does not advance the image leaves the scanline cursor and the
scanline count alone. -/
theorem poll_keeps_cursor (g : Graphics) (p : Poll) (d : Device)
    (hno : Action.AdvanceImage ∉ (handleButtonInput g p d).2) :
    (pollState g p d).display.currentScanlineIndex = d.display.currentScanlineIndex ∧
      (pollState g p d).display.totalScanlines = d.display.totalScanlines := by
  revert hno
  rcases d with ⟨⟨cur, prev, ps, rs, ld, ae⟩, s⟩
  rcases p with ⟨t, raw, it⟩
  simp only [pollState, handleButtonInput, edgeStep, heldStep]
  cases cur <;> cases raw <;> cases ae <;> simp <;> split_ifs <;> simp_all

theorem waitLoop_keeps_cursor (g : Graphics) (samples : List (Nat × Poll)) (d : Device)
    (r : Device × List Action × Nat)
    (hr : waitLoop g samples d = some r) (hno : Action.AdvanceImage ∉ r.2.1) :
    r.1.display.currentScanlineIndex = d.display.currentScanlineIndex ∧
      r.1.display.totalScanlines = d.display.totalScanlines := by
  induction samples generalizing d r with
  | nil => simp [waitLoop] at hr
  | cons sp rest ih =>
    rcases sp with ⟨m, p⟩
    simp only [waitLoop] at hr
    split_ifs at hr with hc
    · cases hrec : waitLoop g rest (handleButtonInput g p d).1 with
      | none => rw [hrec] at hr; simp at hr
      | some t =>
        rw [hrec] at hr
        simp only [Option.map_some', Option.some.injEq] at hr
        subst hr
        simp only [List.mem_append, not_or] at hno
        obtain ⟨h1, h2⟩ := poll_keeps_cursor g p d hno.1
        obtain ⟨h3, h4⟩ := ih _ t hrec hno.2
        simp only [pollState] at h1 h2
        exact ⟨by rw [h3, h1], by rw [h4, h2]⟩
    · simp only [Option.some.injEq] at hr
      subst hr
      exact ⟨rfl, rfl⟩

/-- A completed pass of `loop()` in which the image does not change (the
auto-advance step does nothing and no poll of the wait advances the image):
the calls made are those of the scanline under the cursor, and the cursor
afterwards is that of the cursor-advance step. -/
theorem loop_keeps_cursor (g : Graphics) (fuel : Nat) (t : Tick) (d : Device)
    (r : Device × List PixelWrite × List Action)
    (hauto : autoCycleStep g t.currentMillis t.initTime d.display = d.display)
    (hr : loop g fuel t d = some r) (hno : Action.AdvanceImage ∉ r.2.2) :
    renderScanline g fuel d.display = some r.2.1 ∧
      r.1.display.currentScanlineIndex = (advanceScanline d.display).currentScanlineIndex ∧
      r.1.display.totalScanlines = d.display.totalScanlines := by
  simp only [loop, hauto] at hr
  cases hrend : renderScanline g fuel d.display with
  | none => rw [hrend] at hr; simp at hr
  | some ws =>
    rw [hrend] at hr
    simp only at hr
    cases hw : waitLoop g t.samples ⟨d.buttonState, advanceScanline d.display⟩ with
    | none => rw [hw] at hr; simp at hr
    | some w =>
      rw [hw] at hr
      simp only [Option.some.injEq] at hr
      subst hr
      obtain ⟨h1, h2⟩ := waitLoop_keeps_cursor g t.samples _ w hw hno
      exact ⟨rfl, h1, by rw [h2]; exact advanceScanline_totalScanlines _⟩

/-- C12. With `totalScanlines = L`, `1 ≤ L` (a 16-bit count) and
`currentScanlineIndex = c < L`, the cursor-advance step of `loop()` sets the
cursor to `(c + 1) mod L`, which is 0 exactly when `c = L - 1`, keeps `L` and
keeps the cursor below `L`. After `k` steps the cursor is `(c + k) mod L`, so
`L` consecutive steps visit `c, c+1, ..., L-1, 0, ..., c-1`, each once and in
this order. A completed pass of `loop()` in which the image does not change
renders the scanline under the cursor and then makes exactly this step. -/
theorem scanline_cursor_cycles (s : Display)
    (h1 : 1 ≤ s.totalScanlines) (h16 : s.totalScanlines < 65536)
    (hc : s.currentScanlineIndex < s.totalScanlines) :
    (advanceScanline s).currentScanlineIndex = (s.currentScanlineIndex + 1) % s.totalScanlines ∧
    ((advanceScanline s).currentScanlineIndex = 0 ↔ s.currentScanlineIndex = s.totalScanlines - 1) ∧
    (advanceScanline s).totalScanlines = s.totalScanlines ∧
    (advanceScanline s).currentScanlineIndex < (advanceScanline s).totalScanlines ∧
    (∀ k, (Nat.iterate advanceScanline k s).currentScanlineIndex
        = (s.currentScanlineIndex + k) % s.totalScanlines ∧
      (Nat.iterate advanceScanline k s).currentScanlineIndex
        < (Nat.iterate advanceScanline k s).totalScanlines) ∧
    (List.range s.totalScanlines).map
        (fun k => (Nat.iterate advanceScanline k s).currentScanlineIndex)
      = List.range' s.currentScanlineIndex (s.totalScanlines - s.currentScanlineIndex)
          ++ List.range s.currentScanlineIndex ∧
    (∀ (g : Graphics) (fuel : Nat) (t : Tick) (d : Device)
        (r : Device × List PixelWrite × List Action),
      d.display = s → autoCycleStep g t.currentMillis t.initTime s = s →
      loop g fuel t d = some r → Action.AdvanceImage ∉ r.2.2 →
        renderScanline g fuel s = some r.2.1 ∧
        r.1.display.currentScanlineIndex = (s.currentScanlineIndex + 1) % s.totalScanlines ∧
        r.1.display.totalScanlines = s.totalScanlines) := by
  have hstep := advanceScanline_cursor s h16 hc
  have hit := iterate_advanceScanline s h16 hc
  refine ⟨hstep, ?_, advanceScanline_totalScanlines s, ?_, ?_, ?_, ?_⟩
  · rw [hstep]
    constructor
    · intro h0
      by_contra hne
      rw [Nat.mod_eq_of_lt (by omega)] at h0
      omega
    · intro heq
      have : s.currentScanlineIndex + 1 = s.totalScanlines := by omega
      rw [this, Nat.mod_self]
  · rw [hstep, advanceScanline_totalScanlines]
    exact Nat.mod_lt _ (by omega)
  · intro k
    obtain ⟨ht, hcur⟩ := hit k
    exact ⟨hcur, by rw [ht, hcur]; exact Nat.mod_lt _ (by omega)⟩
  · rw [← wrapped_range s.totalScanlines s.currentScanlineIndex hc]
    apply List.map_congr_left
    intro k _
    exact (hit k).2
  · intro g fuel t d r hd hauto hr hno
    subst hd
    obtain ⟨hrend, hcur, htot⟩ := loop_keeps_cursor g fuel t d r hauto hr hno
    exact ⟨hrend, by rw [hcur, hstep], htot⟩

/-- The PALETTE1 sample image has four scanlines; the cursor started at 2, and
the step from the last scanline. -/
theorem scanline_cursor_cycles_witness :
    (List.range 4).map
        (fun k => (Nat.iterate advanceScanline k
          { displayOf sampleGraphics 0 with currentScanlineIndex := 2 }).currentScanlineIndex)
      = [2, 3, 0, 1] ∧
    (advanceScanline { displayOf sampleGraphics 0 with currentScanlineIndex := 3 }).currentScanlineIndex
      = 0 :=
  ⟨by
    have h := (scanline_cursor_cycles { displayOf sampleGraphics 0 with currentScanlineIndex := 2 }
      (by decide) (by decide) (by decide)).2.2.2.2.2.1
    exact h,
   by
    have h := (scanline_cursor_cycles { displayOf sampleGraphics 0 with currentScanlineIndex := 3 }
      (by decide) (by decide) (by decide)).1
    exact h⟩

/-! ## Scanline renderer: the bytes a pass reads -/

theorem palette1Reads_eq : ∀ (m dp : Nat), palette1Reads m dp = List.range' dp m := by
  intro m
  induction m with
  | zero => intro dp; rfl
  | succ m ih => intro dp; simp [palette1Reads, ih, List.range'_succ]

theorem palette4Reads_eq (n : Nat) (base : Nat) (hn : n ≤ 254) :
    ∀ (k m fuel : Nat), m + k = (n + 1) / 2 → k < fuel →
      palette4Reads n fuel (base + m) (2 * m) = some (List.range' (base + m) k) := by
  intro k
  induction k with
  | zero =>
    intro m fuel hm hf
    obtain ⟨f, rfl⟩ : ∃ f, fuel = f + 1 := ⟨fuel - 1, by omega⟩
    have : ¬ 2 * m < n := by omega
    simp [palette4Reads, this]
  | succ k ih =>
    intro m fuel hm hf
    obtain ⟨f, rfl⟩ : ∃ f, fuel = f + 1 := ⟨fuel - 1, by omega⟩
    have hlt : 2 * m < n := by omega
    have hinc1 : inc8 (2 * m) = 2 * m + 1 := inc8_of_lt (by omega)
    have hinc2 : inc8 (2 * m + 1) = 2 * m + 1 + 1 := inc8_of_lt (by omega)
    have hinc : inc8 (inc8 (2 * m)) = 2 * (m + 1) := by
      rw [hinc1, hinc2]; ring
    simp only [palette4Reads, hlt, if_true, hinc, Nat.add_assoc]
    rw [ih (m + 1) f (by omega) (by omega)]
    simp [List.range'_succ, Nat.add_assoc]

theorem palette8Reads_eq (n : Nat) (base : Nat) (hn : n ≤ 255) :
    ∀ (k l fuel : Nat), l + k = n → k < fuel →
      palette8Reads n fuel (base + l) l = some (List.range' (base + l) k) := by
  intro k
  induction k with
  | zero =>
    intro l fuel hl hf
    obtain ⟨f, rfl⟩ : ∃ f, fuel = f + 1 := ⟨fuel - 1, by omega⟩
    have : ¬ l < n := by omega
    simp [palette8Reads, this]
  | succ k ih =>
    intro l fuel hl hf
    obtain ⟨f, rfl⟩ : ∃ f, fuel = f + 1 := ⟨fuel - 1, by omega⟩
    have hlt : l < n := by omega
    have hinc : inc8 l = l + 1 := inc8_of_lt (by omega)
    simp only [palette8Reads, hlt, if_true, hinc, Nat.add_assoc]
    rw [ih (l + 1) f (by omega) (by omega)]
    simp [List.range'_succ, Nat.add_assoc]

theorem truecolorReads_eq (n : Nat) (base : Nat) (hn : n ≤ 255) :
    ∀ (k l fuel : Nat), l + k = n → k < fuel →
      truecolorReads n fuel (base + 3 * l) l = some (List.range' (base + 3 * l) (3 * k)) := by
  intro k
  induction k with
  | zero =>
    intro l fuel hl hf
    obtain ⟨f, rfl⟩ : ∃ f, fuel = f + 1 := ⟨fuel - 1, by omega⟩
    have : ¬ l < n := by omega
    simp [truecolorReads, this]
  | succ k ih =>
    intro l fuel hl hf
    obtain ⟨f, rfl⟩ : ∃ f, fuel = f + 1 := ⟨fuel - 1, by omega⟩
    have hlt : l < n := by omega
    have hinc : inc8 l = l + 1 := inc8_of_lt (by omega)
    have hptr : base + 3 * l + 3 = base + 3 * (l + 1) := by ring
    have hlen : 3 * (k + 1) = 3 * k + 1 + 1 + 1 := by ring
    simp only [truecolorReads, hlt, if_true, hinc, hptr]
    rw [ih (l + 1) f (by omega) (by omega), hlen]
    simp [List.range'_succ, Nat.add_assoc, Nat.mul_add]

/-- Whatever the strip length and the fuel, the first byte a pass reads, if it
reads any, is the one its start offset points at. -/
theorem renderReads_head (g : Graphics) (fuel : Nat) (s : Display) (rs : List Nat) (a : Nat)
    (hr : renderReads g fuel s = some rs) (ha : rs.head? = some a) :
    a = match s.activeImageFormat with
      | ImageFormat.PALETTE1 => s.currentScanlineIndex * g.NUM_LEDS / 8
      | ImageFormat.PALETTE4 => s.currentScanlineIndex * g.NUM_LEDS / 2
      | ImageFormat.PALETTE8 => s.currentScanlineIndex * g.NUM_LEDS
      | ImageFormat.TRUECOLOR => s.currentScanlineIndex * g.NUM_LEDS * 3 := by
  cases hfmt : s.activeImageFormat <;> simp only [renderReads, hfmt] at hr ⊢
  · simp only [Option.some.injEq] at hr
    subst hr
    cases hm : g.NUM_LEDS / 8 % 256 with
    | zero => rw [hm] at ha; simp [palette1Reads] at ha
    | succ m => rw [hm] at ha; simp [palette1Reads] at ha; exact ha.symm
  · cases fuel with
    | zero => simp [palette4Reads] at hr
    | succ f =>
      simp only [palette4Reads] at hr
      split_ifs at hr
      · cases hrec : palette4Reads g.NUM_LEDS f (s.currentScanlineIndex * g.NUM_LEDS / 2 + 1)
            (inc8 (inc8 0)) with
        | none => rw [hrec] at hr; simp at hr
        | some t =>
          rw [hrec] at hr
          simp only [Option.map_some', Option.some.injEq] at hr
          subst hr
          simp at ha
          exact ha.symm
      · simp only [Option.some.injEq] at hr
        subst hr
        simp at ha
  · cases fuel with
    | zero => simp [palette8Reads] at hr
    | succ f =>
      simp only [palette8Reads] at hr
      split_ifs at hr
      · cases hrec : palette8Reads g.NUM_LEDS f (s.currentScanlineIndex * g.NUM_LEDS + 1)
            (inc8 0) with
        | none => rw [hrec] at hr; simp at hr
        | some t =>
          rw [hrec] at hr
          simp only [Option.map_some', Option.some.injEq] at hr
          subst hr
          simp at ha
          exact ha.symm
      · simp only [Option.some.injEq] at hr
        subst hr
        simp at ha
  · cases fuel with
    | zero => simp [truecolorReads] at hr
    | succ f =>
      simp only [truecolorReads] at hr
      split_ifs at hr
      · cases hrec : truecolorReads g.NUM_LEDS f (s.currentScanlineIndex * g.NUM_LEDS * 3 + 3)
            (inc8 0) with
        | none => rw [hrec] at hr; simp at hr
        | some t =>
          rw [hrec] at hr
          simp only [Option.map_some', Option.some.injEq] at hr
          subst hr
          simp at ha
          exact ha.symm
      · simp only [Option.some.injEq] at hr
        subst hr
        simp at ha

/-- A PALETTE4 pass that ends has read exactly what it had read within its
loop tests. -/
theorem palette4ReadsWithin_of_reads (n : Nat) :
    ∀ (fuel dp l : Nat) (rs : List Nat),
      palette4Reads n fuel dp l = some rs → palette4ReadsWithin n fuel dp l = rs := by
  intro fuel
  induction fuel with
  | zero => intro dp l rs h; simp [palette4Reads] at h
  | succ f ih =>
    intro dp l rs h
    simp only [palette4Reads] at h
    simp only [palette4ReadsWithin]
    split_ifs at h ⊢
    · cases hrec : palette4Reads n f (dp + 1) (inc8 (inc8 l)) with
      | none => rw [hrec] at h; simp at h
      | some t =>
        rw [hrec] at h
        simp only [Option.map_some', Option.some.injEq] at h
        rw [ih _ _ t hrec, h]
    · simpa using h

/-- A PALETTE8 pass that ends has read exactly what it had read within its
loop tests. -/
theorem palette8ReadsWithin_of_reads (n : Nat) :
    ∀ (fuel dp l : Nat) (rs : List Nat),
      palette8Reads n fuel dp l = some rs → palette8ReadsWithin n fuel dp l = rs := by
  intro fuel
  induction fuel with
  | zero => intro dp l rs h; simp [palette8Reads] at h
  | succ f ih =>
    intro dp l rs h
    simp only [palette8Reads] at h
    simp only [palette8ReadsWithin]
    split_ifs at h ⊢
    · cases hrec : palette8Reads n f (dp + 1) (inc8 l) with
      | none => rw [hrec] at h; simp at h
      | some t =>
        rw [hrec] at h
        simp only [Option.map_some', Option.some.injEq] at h
        rw [ih _ _ t hrec, h]
    · simpa using h

/-- A TRUECOLOR pass that ends has read exactly what it had read within its
loop tests. -/
theorem truecolorReadsWithin_of_reads (n : Nat) :
    ∀ (fuel dp l : Nat) (rs : List Nat),
      truecolorReads n fuel dp l = some rs → truecolorReadsWithin n fuel dp l = rs := by
  intro fuel
  induction fuel with
  | zero => intro dp l rs h; simp [truecolorReads] at h
  | succ f ih =>
    intro dp l rs h
    simp only [truecolorReads] at h
    simp only [truecolorReadsWithin]
    split_ifs at h ⊢
    · cases hrec : truecolorReads n f (dp + 3) (inc8 l) with
      | none => rw [hrec] at h; simp at h
      | some t =>
        rw [hrec] at h
        simp only [Option.map_some', Option.some.injEq] at h
        rw [ih _ _ t hrec, h]
    · simpa using h

/-- The reads of a pass that ends are the reads made within its loop tests. -/
theorem renderReadsWithin_of_reads (g : Graphics) (fuel : Nat) (s : Display) (rs : List Nat)
    (hr : renderReads g fuel s = some rs) : renderReadsWithin g fuel s = rs := by
  cases hfmt : s.activeImageFormat <;> simp only [renderReads, hfmt] at hr <;>
    simp only [renderReadsWithin, hfmt]
  · simpa using hr
  · exact palette4ReadsWithin_of_reads _ _ _ _ _ hr
  · exact palette8ReadsWithin_of_reads _ _ _ _ _ hr
  · exact truecolorReadsWithin_of_reads _ _ _ _ _ hr

/-- More loop tests only extend what a PALETTE4 pass has read. -/
theorem palette4ReadsWithin_prefix (n : Nat) :
    ∀ (fuel dp l : Nat),
      palette4ReadsWithin n fuel dp l <+: palette4ReadsWithin n (fuel + 1) dp l := by
  intro fuel
  induction fuel with
  | zero => intro dp l; simp [palette4ReadsWithin]
  | succ f ih =>
    intro dp l
    rw [palette4ReadsWithin, palette4ReadsWithin]
    split_ifs
    · exact (List.prefix_cons_inj _).2 (ih _ _)
    · exact List.prefix_refl _

/-- More loop tests only extend what a PALETTE8 pass has read. -/
theorem palette8ReadsWithin_prefix (n : Nat) :
    ∀ (fuel dp l : Nat),
      palette8ReadsWithin n fuel dp l <+: palette8ReadsWithin n (fuel + 1) dp l := by
  intro fuel
  induction fuel with
  | zero => intro dp l; simp [palette8ReadsWithin]
  | succ f ih =>
    intro dp l
    rw [palette8ReadsWithin, palette8ReadsWithin]
    split_ifs
    · exact (List.prefix_cons_inj _).2 (ih _ _)
    · exact List.prefix_refl _

/-- More loop tests only extend what a TRUECOLOR pass has read. -/
theorem truecolorReadsWithin_prefix (n : Nat) :
    ∀ (fuel dp l : Nat),
      truecolorReadsWithin n fuel dp l <+: truecolorReadsWithin n (fuel + 1) dp l := by
  intro fuel
  induction fuel with
  | zero => intro dp l; simp [truecolorReadsWithin]
  | succ f ih =>
    intro dp l
    rw [truecolorReadsWithin, truecolorReadsWithin]
    split_ifs
    · exact (List.prefix_cons_inj _).2
        ((List.prefix_cons_inj _).2 ((List.prefix_cons_inj _).2 (ih _ _)))
    · exact List.prefix_refl _

/-- More loop tests only extend what a pass has read. -/
theorem renderReadsWithin_prefix (g : Graphics) (fuel : Nat) (s : Display) :
    renderReadsWithin g fuel s <+: renderReadsWithin g (fuel + 1) s := by
  cases hfmt : s.activeImageFormat <;> simp only [renderReadsWithin, hfmt]
  · exact List.prefix_refl _
  · exact palette4ReadsWithin_prefix _ _ _ _
  · exact palette8ReadsWithin_prefix _ _ _ _
  · exact truecolorReadsWithin_prefix _ _ _ _

/-- On 256 LEDs or more the 8-bit counter of a PALETTE8 loop never reaches the
strip length, so its read trace is never complete. -/
theorem palette8Reads_none (n : Nat) (hn : 256 ≤ n) :
    ∀ (fuel dp l : Nat), l < 256 → palette8Reads n fuel dp l = none := by
  intro fuel
  induction fuel with
  | zero => intro dp l _; rfl
  | succ f ih =>
    intro dp l hl
    have hlt : l < n := by omega
    have hi : inc8 l < 256 := Nat.mod_lt _ (by decide)
    simp [palette8Reads, hlt, ih _ _ hi]

/-- Whatever the strip length and the number of loop tests, the first byte a
pass has read, if it has read any, is the one its start offset points at. -/
theorem renderReadsWithin_head (g : Graphics) (fuel : Nat) (s : Display) (a : Nat)
    (ha : (renderReadsWithin g fuel s).head? = some a) :
    a = match s.activeImageFormat with
      | ImageFormat.PALETTE1 => s.currentScanlineIndex * g.NUM_LEDS / 8
      | ImageFormat.PALETTE4 => s.currentScanlineIndex * g.NUM_LEDS / 2
      | ImageFormat.PALETTE8 => s.currentScanlineIndex * g.NUM_LEDS
      | ImageFormat.TRUECOLOR => s.currentScanlineIndex * g.NUM_LEDS * 3 := by
  cases hfmt : s.activeImageFormat <;> simp only [renderReadsWithin, hfmt] at ha ⊢
  · cases hm : g.NUM_LEDS / 8 % 256 with
    | zero => rw [hm] at ha; simp [palette1Reads] at ha
    | succ m => rw [hm] at ha; simp [palette1Reads] at ha; exact ha.symm
  · cases fuel with
    | zero => simp [palette4ReadsWithin] at ha
    | succ f =>
      simp only [palette4ReadsWithin] at ha
      split_ifs at ha
      · simp at ha; exact ha.symm
      · simp at ha
  · cases fuel with
    | zero => simp [palette8ReadsWithin] at ha
    | succ f =>
      simp only [palette8ReadsWithin] at ha
      split_ifs at ha
      · simp at ha; exact ha.symm
      · simp at ha
  · cases fuel with
    | zero => simp [truecolorReadsWithin] at ha
    | succ f =>
      simp only [truecolorReadsWithin] at ha
      split_ifs at ha
      · simp at ha; exact ha.symm
      · simp at ha

/-- A pass whose loop is entered has read the byte at its start offset after
its first loop test. -/
theorem renderReadsWithin_head_some (g : Graphics) (fuel : Nat) (s : Display)
    (hfuel : 0 < fuel)
    (h1 : s.activeImageFormat = ImageFormat.PALETTE1 → 0 < g.NUM_LEDS / 8 % 256)
    (hn : s.activeImageFormat ≠ ImageFormat.PALETTE1 → 0 < g.NUM_LEDS) :
    (renderReadsWithin g fuel s).head? = some (match s.activeImageFormat with
      | ImageFormat.PALETTE1 => s.currentScanlineIndex * g.NUM_LEDS / 8
      | ImageFormat.PALETTE4 => s.currentScanlineIndex * g.NUM_LEDS / 2
      | ImageFormat.PALETTE8 => s.currentScanlineIndex * g.NUM_LEDS
      | ImageFormat.TRUECOLOR => s.currentScanlineIndex * g.NUM_LEDS * 3) := by
  obtain ⟨f, rfl⟩ : ∃ f, fuel = f + 1 := ⟨fuel - 1, by omega⟩
  cases hfmt : s.activeImageFormat <;> simp only [renderReadsWithin, hfmt]
  · obtain ⟨m, hm⟩ : ∃ m, g.NUM_LEDS / 8 % 256 = m + 1 :=
      ⟨g.NUM_LEDS / 8 % 256 - 1, by have := h1 hfmt; omega⟩
    rw [hm]
    simp [palette1Reads]
  · have hpos : 0 < g.NUM_LEDS := hn (by rw [hfmt]; decide)
    simp [palette4ReadsWithin, hpos]
  · have hpos : 0 < g.NUM_LEDS := hn (by rw [hfmt]; decide)
    simp [palette8ReadsWithin, hpos]
  · have hpos : 0 < g.NUM_LEDS := hn (by rw [hfmt]; decide)
    simp [truecolorReadsWithin, hpos]

/-- C16, counterexample. On a strip of 12 LEDs the PALETTE1 pass of scanline 2
starts reading at byte `2 * 12 / 8 = 3`, not at `2 * (12 / 8) = 2`. -/
theorem palette1_offset_not_stride_multiple :
    renderReads (withLeds 12) 0 { displayOf (withLeds 12) 0 with currentScanlineIndex := 2 }
      = some [3] ∧
    2 * scanlineStride ImageFormat.PALETTE1 (withLeds 12).NUM_LEDS = 2 ∧
    2 * (withLeds 12).NUM_LEDS / 8 ≠ 2 * ((withLeds 12).NUM_LEDS / 8) := by
  decide

/-- C16, as amended. On a strip whose scanlines are whole bytes (`NUM_LEDS` a
multiple of 8 for PALETTE1, even for PALETTE4; any length for PALETTE8 and
TRUECOLOR), the first pixel byte a render pass reads is at offset `s` times
the per-scanline stride of the format, `s` being the scanline index, whether
or not the pass ever ends: whatever the pass has read within any number of
loop tests starts with that offset; a pass whose loop is entered has read it
after one loop test; the reads of a pass that ends are those same reads; and
the offsets computed as `s*NUM_LEDS/8` and `s*NUM_LEDS/2` then equal
`s*(NUM_LEDS/8)` and `s*(NUM_LEDS/2)`. -/
theorem first_read_at_scanline_stride (g : Graphics) (s : Display)
    (h8 : s.activeImageFormat = ImageFormat.PALETTE1 → g.NUM_LEDS % 8 = 0)
    (h2 : s.activeImageFormat = ImageFormat.PALETTE4 → g.NUM_LEDS % 2 = 0) :
    (∀ (fuel a : Nat), (renderReadsWithin g fuel s).head? = some a →
      a = s.currentScanlineIndex * scanlineStride s.activeImageFormat g.NUM_LEDS) ∧
    (∀ (fuel : Nat), 0 < fuel →
      (s.activeImageFormat = ImageFormat.PALETTE1 → 0 < g.NUM_LEDS / 8 % 256) →
      (s.activeImageFormat ≠ ImageFormat.PALETTE1 → 0 < g.NUM_LEDS) →
        (renderReadsWithin g fuel s).head? =
          some (s.currentScanlineIndex * scanlineStride s.activeImageFormat g.NUM_LEDS)) ∧
    (∀ (fuel : Nat) (rs : List Nat), renderReads g fuel s = some rs →
      renderReadsWithin g fuel s = rs ∧
      ∀ a, rs.head? = some a →
        a = s.currentScanlineIndex * scanlineStride s.activeImageFormat g.NUM_LEDS) ∧
    (s.activeImageFormat = ImageFormat.PALETTE1 →
      s.currentScanlineIndex * g.NUM_LEDS / 8 = s.currentScanlineIndex * (g.NUM_LEDS / 8)) ∧
    (s.activeImageFormat = ImageFormat.PALETTE4 →
      s.currentScanlineIndex * g.NUM_LEDS / 2 = s.currentScanlineIndex * (g.NUM_LEDS / 2)) := by
  have e8 : s.activeImageFormat = ImageFormat.PALETTE1 →
      s.currentScanlineIndex * g.NUM_LEDS / 8 = s.currentScanlineIndex * (g.NUM_LEDS / 8) :=
    fun h => Nat.mul_div_assoc _ (Nat.dvd_of_mod_eq_zero (h8 h))
  have e2 : s.activeImageFormat = ImageFormat.PALETTE4 →
      s.currentScanlineIndex * g.NUM_LEDS / 2 = s.currentScanlineIndex * (g.NUM_LEDS / 2) :=
    fun h => Nat.mul_div_assoc _ (Nat.dvd_of_mod_eq_zero (h2 h))
  have hstart : (match s.activeImageFormat with
      | ImageFormat.PALETTE1 => s.currentScanlineIndex * g.NUM_LEDS / 8
      | ImageFormat.PALETTE4 => s.currentScanlineIndex * g.NUM_LEDS / 2
      | ImageFormat.PALETTE8 => s.currentScanlineIndex * g.NUM_LEDS
      | ImageFormat.TRUECOLOR => s.currentScanlineIndex * g.NUM_LEDS * 3) =
      s.currentScanlineIndex * scanlineStride s.activeImageFormat g.NUM_LEDS := by
    cases hfmt : s.activeImageFormat <;> simp only [scanlineStride]
    · exact e8 hfmt
    · exact e2 hfmt
    · exact Nat.mul_assoc _ _ _
  have hfirst : ∀ (fuel a : Nat), (renderReadsWithin g fuel s).head? = some a →
      a = s.currentScanlineIndex * scanlineStride s.activeImageFormat g.NUM_LEDS := by
    intro fuel a ha
    rw [← hstart]
    exact renderReadsWithin_head g fuel s a ha
  refine ⟨hfirst, ?_, ?_, e8, e2⟩
  · intro fuel hfuel h1 hn
    rw [← hstart]
    exact renderReadsWithin_head_some g fuel s hfuel h1 hn
  · intro fuel rs hr
    have hw := renderReadsWithin_of_reads g fuel s rs hr
    refine ⟨hw, ?_⟩
    intro a ha
    rw [← hw] at ha
    exact hfirst fuel a ha

/-- Scanline 2 of the PALETTE8 sample image on a strip of 256 LEDs, where the
pass never ends: its first read is at `2 * 256 = 512`. -/
theorem first_read_at_scanline_stride_witness :
    (displayOf (withLeds 256) 2).activeImageFormat = ImageFormat.PALETTE8 ∧
    (¬ ∃ fuel, (renderReads (withLeds 256) fuel
        { displayOf (withLeds 256) 2 with currentScanlineIndex := 2 }).isSome = true) ∧
    (renderReadsWithin (withLeds 256) 2
        { displayOf (withLeds 256) 2 with currentScanlineIndex := 2 }).head? =
      some (2 * scanlineStride ImageFormat.PALETTE8 (withLeds 256).NUM_LEDS) := by
  refine ⟨by decide, ?_, ?_⟩
  · rintro ⟨fuel, h⟩
    have hnone : renderReads (withLeds 256) fuel
        { displayOf (withLeds 256) 2 with currentScanlineIndex := 2 } = none :=
      palette8Reads_none 256 (by decide) fuel _ 0 (by decide)
    rw [hnone] at h
    exact absurd h (by decide)
  · exact (first_read_at_scanline_stride (withLeds 256)
      { displayOf (withLeds 256) 2 with currentScanlineIndex := 2 }
      (by decide) (by decide)).2.1 2 (by decide) (by decide) (by decide)

/-- C19. With the 8-bit counters wrapping modulo 256, on a strip of at most
254 LEDs the render loop of each format ends (any fuel above `NUM_LEDS` is
enough), making `8 * floor(NUM_LEDS/8)` calls of `setPixelColor` for PALETTE1,
`2 * ceil(NUM_LEDS/2)` for PALETTE4 and `NUM_LEDS` for PALETTE8 and TRUECOLOR,
and reading `floor(NUM_LEDS/8)`, `ceil(NUM_LEDS/2)`, `NUM_LEDS` and
`3 * NUM_LEDS` pixel bytes respectively. -/
theorem render_loops_end_with_counts (g : Graphics) (fuel : Nat) (s : Display)
    (hn : g.NUM_LEDS ≤ 254) (hfuel : g.NUM_LEDS < fuel) :
    ∃ ws rs, renderScanline g fuel s = some ws ∧ renderReads g fuel s = some rs ∧
      (s.activeImageFormat = ImageFormat.PALETTE1 →
        ws.length = 8 * (g.NUM_LEDS / 8) ∧ rs.length = g.NUM_LEDS / 8) ∧
      (s.activeImageFormat = ImageFormat.PALETTE4 →
        ws.length = 2 * ((g.NUM_LEDS + 1) / 2) ∧ rs.length = (g.NUM_LEDS + 1) / 2) ∧
      (s.activeImageFormat = ImageFormat.PALETTE8 →
        ws.length = g.NUM_LEDS ∧ rs.length = g.NUM_LEDS) ∧
      (s.activeImageFormat = ImageFormat.TRUECOLOR →
        ws.length = g.NUM_LEDS ∧ rs.length = 3 * g.NUM_LEDS) := by
  cases hfmt : s.activeImageFormat
  · have hm : g.NUM_LEDS / 8 % 256 = g.NUM_LEDS / 8 := by omega
    refine ⟨_, List.range' (s.currentScanlineIndex * g.NUM_LEDS / 8) (g.NUM_LEDS / 8),
      render_palette1 g fuel s hfmt (by omega), ?_, ?_⟩
    · simp only [renderReads, hfmt, hm, palette1Reads_eq]
    · simp
  · have hr := palette4Reads_eq g.NUM_LEDS (s.currentScanlineIndex * g.NUM_LEDS / 2) hn
      ((g.NUM_LEDS + 1) / 2) 0 fuel (by omega) (by omega)
    rw [Nat.add_zero, Nat.mul_zero] at hr
    refine ⟨_, List.range' (s.currentScanlineIndex * g.NUM_LEDS / 2) ((g.NUM_LEDS + 1) / 2),
      render_palette4 g fuel s hfmt hn hfuel, ?_, ?_⟩
    · simp only [renderReads, hfmt]
      exact hr
    · simp
  · have hr := palette8Reads_eq g.NUM_LEDS (s.currentScanlineIndex * g.NUM_LEDS) (by omega)
      g.NUM_LEDS 0 fuel (by omega) hfuel
    rw [Nat.add_zero] at hr
    refine ⟨_, List.range' (s.currentScanlineIndex * g.NUM_LEDS) g.NUM_LEDS,
      render_palette8 g fuel s hfmt (by omega) hfuel, ?_, ?_⟩
    · simp only [renderReads, hfmt]
      exact hr
    · simp
  · have hr := truecolorReads_eq g.NUM_LEDS (s.currentScanlineIndex * g.NUM_LEDS * 3) (by omega)
      g.NUM_LEDS 0 fuel (by omega) hfuel
    rw [Nat.mul_zero, Nat.add_zero] at hr
    refine ⟨_, List.range' (s.currentScanlineIndex * g.NUM_LEDS * 3) (3 * g.NUM_LEDS),
      render_truecolor g fuel s hfmt (by omega) hfuel, ?_, ?_⟩
    · simp only [renderReads, hfmt]
      exact hr
    · simp

/-- The PALETTE4 sample image on a strip of 7 LEDs: eight calls, four bytes. -/
theorem render_loops_end_with_counts_witness :
    ∃ ws rs, renderScanline (withLeds 7) 8 (displayOf (withLeds 7) 1) = some ws ∧
      renderReads (withLeds 7) 8 (displayOf (withLeds 7) 1) = some rs ∧
      ws.length = 8 ∧ rs.length = 4 := by
  obtain ⟨ws, rs, hw, hr, -, h4, -, -⟩ :=
    render_loops_end_with_counts (withLeds 7) 8 (displayOf (withLeds 7) 1) (by decide) (by decide)
  exact ⟨ws, rs, hw, hr, h4 rfl⟩


end SupernovaPoi
